import Mathlib

/-!
# opentelemetry-zap-bridge: field encoder and core adapter

A shallow embedding of `otelencoder.go` (the `zapOtelEncoder` that turns zap
fields into OpenTelemetry attributes) and of `otellogger.go` (the
`OtelZapCore` adapter that turns a zap entry into a log record and emits it,
and `AttachToZapLogger`, which attaches the adapter to a logger), with the
properties of the specification stated and proved over it.

Conventions of the embedding.

* A Go `string` is an immutable byte sequence: `GoString := List UInt8`.
  String literals of the source are written `str "..."` (their UTF-8 bytes).
* A Go `[]byte` is `Option (List UInt8)`; `none` is the nil slice.
* Go integers are mathematical integers (`Int`, `Nat`); every conversion the
  source performs is written out (`int64`, `int`, `int8Add`), with the
  two's-complement wrap-around made explicit by `% 2^w`.
* The receiver `z *zapOtelEncoder` is passed in and the updated encoder is
  returned; a method that returns `error` returns the pair of the updated
  encoder and the error (`none` is `nil`).
* `append(s, x)` on a slice is `s ++ [x]`.
-/

set_option autoImplicit false

namespace ZapBridge

/-! ## Go values -/

/-- Go `string`: a sequence of bytes. -/
abbrev GoString := List UInt8

/-- The bytes of a source string literal. -/
def str (s : String) : GoString := s.toUTF8.data.toList

/-- Go `[]byte`; `none` is the nil slice. -/
abbrev Bytes := Option (List UInt8)

/-- Go `string(b)` for a byte slice: the same bytes, the nil slice giving the
empty string. -/
def stringOfBytes (b : Bytes) : GoString := b.getD []

/-- Go `error`: `none` is `nil`, `some msg` an error whose `Error()` is `msg`. -/
abbrev GoError := Option GoString

/-- Reinterpretation of an integer as a signed `w`-bit two's-complement value:
the unique representative of `v` modulo `2^w` in `[-2^(w-1), 2^(w-1))`. -/
def wrapSigned (w : Nat) (v : Int) : Int :=
  (v + 2 ^ (w - 1)) % 2 ^ w - 2 ^ (w - 1)

/-- Go conversion `int64(v)`. -/
def int64 (v : Int) : Int := wrapSigned 64 v

/-- Width in bits of the platform types `int` and `uint` (64-bit platform). -/
def intSize : Nat := 64

/-- Go conversion `int(v)`. -/
def int (v : Int) : Int := wrapSigned intSize v

/-- IEEE-754 binary64 value, by its bit pattern. -/
structure Float64 where
  bits : Nat
  deriving DecidableEq, Repr

/-- IEEE-754 binary32 value, by its bit pattern. -/
structure Float32 where
  bits : Nat
  deriving DecidableEq, Repr

/-- Go `complex128`: real and imaginary part. -/
structure Complex128 where
  re : Float64
  im : Float64
  deriving DecidableEq, Repr

/-- Go `complex64`: real and imaginary part. -/
structure Complex64 where
  re : Float32
  im : Float32
  deriving DecidableEq, Repr

/-- Go `time.Time`: wall-clock word, extended seconds, location handle. -/
structure Time where
  wall : Nat
  ext : Int
  loc : Nat
  deriving DecidableEq, Repr

/-- Go `time.Duration`: a signed 64-bit count of nanoseconds. -/
abbrev Duration := Int

/-- The standard-library functions the encoder calls and that are not part of
this repository: the renderings `time.Duration.String` and `time.Time.String`,
and the conversion `float64(x)` of a `float32`. -/
structure GoRuntime where
  durationString : Duration → GoString
  timeString : Time → GoString
  float64OfFloat32 : Float32 → Float64

/-! ## `go.opentelemetry.io/otel/attribute` -/

/-- The variants of `attribute.Value` (`attribute.Type`). -/
inductive Value where
  | INVALID
  | BOOL (v : Bool)
  | INT64 (v : Int)
  | FLOAT64 (v : Float64)
  | STRING (v : GoString)
  | BOOLSLICE (v : List Bool)
  | INT64SLICE (v : List Int)
  | FLOAT64SLICE (v : List Float64)
  | STRINGSLICE (v : List GoString)
  deriving DecidableEq, Repr

/-- The pair `attribute.KeyValue`. -/
structure KeyValue where
  Key : GoString
  Value : Value
  deriving DecidableEq, Repr

/-- `attribute.String(k, v)`. -/
def Attribute.String (k v : GoString) : KeyValue := ⟨k, .STRING v⟩

/-- `attribute.Bool(k, v)`. -/
def Attribute.Bool (k : GoString) (v : Bool) : KeyValue := ⟨k, .BOOL v⟩

/-- `attribute.Int64(k, v)`. -/
def Attribute.Int64 (k : GoString) (v : Int) : KeyValue := ⟨k, .INT64 v⟩

/-- `attribute.Int(k, v)`, which is `Int64Value(int64(v))`. -/
def Attribute.Int (k : GoString) (v : Int) : KeyValue := ⟨k, .INT64 (int64 v)⟩

/-- `attribute.Float64(k, v)`. -/
def Attribute.Float64 (k : GoString) (v : Float64) : KeyValue := ⟨k, .FLOAT64 v⟩

/-! ## `otelencoder.go` -/

/-- Interface value handed to `AddArray` (`zapcore.ArrayMarshaler`). -/
structure ArrayMarshaler where
  handle : Nat
  deriving DecidableEq, Repr

/-- Interface value handed to `AddObject` (`zapcore.ObjectMarshaler`). -/
structure ObjectMarshaler where
  handle : Nat
  deriving DecidableEq, Repr

/-- Value handed to `AddReflected` (Go `interface{}`). -/
structure Reflected where
  handle : Nat
  deriving DecidableEq, Repr

/-- The encoder: its attribute slice. The embedded `zapcore.Encoder` interface
is never set and none of its remaining methods is called. -/
structure zapOtelEncoder where
  OtelAttributes : List KeyValue
  deriving DecidableEq, Repr

/-- `newZapOtelEncoder(numberOfFields)`: `make([]attribute.KeyValue, 0, n)`,
a slice of length 0 (the capacity `n` is not observable in the contents). -/
def newZapOtelEncoder (numberOfFields : Nat) : zapOtelEncoder :=
  let _capacity := numberOfFields
  { OtelAttributes := [] }

namespace zapOtelEncoder

def AddArray (z : zapOtelEncoder) (_key : GoString) (_marshaler : ArrayMarshaler) :
    zapOtelEncoder × GoError :=
  (z, none)

def AddObject (z : zapOtelEncoder) (_key : GoString) (_marshaler : ObjectMarshaler) :
    zapOtelEncoder × GoError :=
  (z, none)

def AddBinary (z : zapOtelEncoder) (key : GoString) (_value : Bytes) : zapOtelEncoder :=
  { z with OtelAttributes := z.OtelAttributes ++ [Attribute.String key (str "<binary data>")] }

def AddByteString (z : zapOtelEncoder) (key : GoString) (value : Bytes) : zapOtelEncoder :=
  { z with OtelAttributes := z.OtelAttributes ++ [Attribute.String key (stringOfBytes value)] }

def AddBool (z : zapOtelEncoder) (key : GoString) (value : Bool) : zapOtelEncoder :=
  { z with OtelAttributes := z.OtelAttributes ++ [Attribute.Bool key value] }

def AddComplex128 (z : zapOtelEncoder) (key : GoString) (_value : Complex128) : zapOtelEncoder :=
  { z with OtelAttributes := z.OtelAttributes ++ [Attribute.String key (str "<complex128>")] }

def AddComplex64 (z : zapOtelEncoder) (key : GoString) (_value : Complex64) : zapOtelEncoder :=
  { z with OtelAttributes := z.OtelAttributes ++ [Attribute.String key (str "<complex64>")] }

def AddDuration (rt : GoRuntime) (z : zapOtelEncoder) (key : GoString) (value : Duration) :
    zapOtelEncoder :=
  { z with OtelAttributes := z.OtelAttributes ++ [Attribute.String key (rt.durationString value)] }

def AddFloat64 (z : zapOtelEncoder) (key : GoString) (value : Float64) : zapOtelEncoder :=
  { z with OtelAttributes := z.OtelAttributes ++ [Attribute.Float64 key value] }

def AddFloat32 (rt : GoRuntime) (z : zapOtelEncoder) (key : GoString) (value : Float32) :
    zapOtelEncoder :=
  { z with OtelAttributes :=
      z.OtelAttributes ++ [Attribute.Float64 key (rt.float64OfFloat32 value)] }

def AddInt (z : zapOtelEncoder) (key : GoString) (value : Int) : zapOtelEncoder :=
  { z with OtelAttributes := z.OtelAttributes ++ [Attribute.Int key (int value)] }

def AddInt64 (z : zapOtelEncoder) (key : GoString) (value : Int) : zapOtelEncoder :=
  { z with OtelAttributes := z.OtelAttributes ++ [Attribute.Int64 key value] }

def AddInt32 (z : zapOtelEncoder) (key : GoString) (value : Int) : zapOtelEncoder :=
  { z with OtelAttributes := z.OtelAttributes ++ [Attribute.Int64 key (int64 value)] }

def AddInt16 (z : zapOtelEncoder) (key : GoString) (value : Int) : zapOtelEncoder :=
  { z with OtelAttributes := z.OtelAttributes ++ [Attribute.Int64 key (int64 value)] }

def AddInt8 (z : zapOtelEncoder) (key : GoString) (value : Int) : zapOtelEncoder :=
  { z with OtelAttributes := z.OtelAttributes ++ [Attribute.Int64 key (int64 value)] }

def AddString (z : zapOtelEncoder) (key value : GoString) : zapOtelEncoder :=
  { z with OtelAttributes := z.OtelAttributes ++ [Attribute.String key value] }

def AddTime (rt : GoRuntime) (z : zapOtelEncoder) (key : GoString) (value : Time) :
    zapOtelEncoder :=
  { z with OtelAttributes := z.OtelAttributes ++ [Attribute.String key (rt.timeString value)] }

def AddUint (z : zapOtelEncoder) (key : GoString) (value : Nat) : zapOtelEncoder :=
  { z with OtelAttributes := z.OtelAttributes ++ [Attribute.Int key (int value)] }

def AddUint64 (z : zapOtelEncoder) (key : GoString) (value : Nat) : zapOtelEncoder :=
  let asInt64 := int64 value
  if asInt64 > 0 then
    { z with OtelAttributes := z.OtelAttributes ++ [Attribute.Int64 key asInt64] }
  else
    { z with OtelAttributes :=
        z.OtelAttributes ++ [Attribute.String key (str "<overflowed uint64>")] }

def AddUint32 (z : zapOtelEncoder) (key : GoString) (value : Nat) : zapOtelEncoder :=
  { z with OtelAttributes := z.OtelAttributes ++ [Attribute.Int64 key (int64 value)] }

def AddUint16 (z : zapOtelEncoder) (key : GoString) (value : Nat) : zapOtelEncoder :=
  { z with OtelAttributes := z.OtelAttributes ++ [Attribute.Int64 key (int64 value)] }

def AddUint8 (z : zapOtelEncoder) (key : GoString) (value : Nat) : zapOtelEncoder :=
  { z with OtelAttributes := z.OtelAttributes ++ [Attribute.Int64 key (int64 value)] }

def AddUintptr (z : zapOtelEncoder) (_key : GoString) (_value : Nat) : zapOtelEncoder :=
  z

def AddReflected (z : zapOtelEncoder) (_key : GoString) (_value : Reflected) :
    zapOtelEncoder × GoError :=
  (z, none)

def OpenNamespace (z : zapOtelEncoder) (_key : GoString) : zapOtelEncoder :=
  z

end zapOtelEncoder

/-! ## Calls of the encoder's methods -/

/-- One call of a method of `zapOtelEncoder`, with its arguments: a
constructor for each method of `otelencoder.go`. -/
inductive EncoderOp where
  | AddArray (key : GoString) (marshaler : ArrayMarshaler)
  | AddObject (key : GoString) (marshaler : ObjectMarshaler)
  | AddBinary (key : GoString) (value : Bytes)
  | AddByteString (key : GoString) (value : Bytes)
  | AddBool (key : GoString) (value : Bool)
  | AddComplex128 (key : GoString) (value : Complex128)
  | AddComplex64 (key : GoString) (value : Complex64)
  | AddDuration (key : GoString) (value : Duration)
  | AddFloat64 (key : GoString) (value : Float64)
  | AddFloat32 (key : GoString) (value : Float32)
  | AddInt (key : GoString) (value : Int)
  | AddInt64 (key : GoString) (value : Int)
  | AddInt32 (key : GoString) (value : Int)
  | AddInt16 (key : GoString) (value : Int)
  | AddInt8 (key : GoString) (value : Int)
  | AddString (key : GoString) (value : GoString)
  | AddTime (key : GoString) (value : Time)
  | AddUint (key : GoString) (value : Nat)
  | AddUint64 (key : GoString) (value : Nat)
  | AddUint32 (key : GoString) (value : Nat)
  | AddUint16 (key : GoString) (value : Nat)
  | AddUint8 (key : GoString) (value : Nat)
  | AddUintptr (key : GoString) (value : Nat)
  | AddReflected (key : GoString) (value : Reflected)
  | OpenNamespace (key : GoString)
  deriving DecidableEq, Repr

/-- The key argument of a call. -/
def EncoderOp.key : EncoderOp → GoString
  | .AddArray key _ => key
  | .AddObject key _ => key
  | .AddBinary key _ => key
  | .AddByteString key _ => key
  | .AddBool key _ => key
  | .AddComplex128 key _ => key
  | .AddComplex64 key _ => key
  | .AddDuration key _ => key
  | .AddFloat64 key _ => key
  | .AddFloat32 key _ => key
  | .AddInt key _ => key
  | .AddInt64 key _ => key
  | .AddInt32 key _ => key
  | .AddInt16 key _ => key
  | .AddInt8 key _ => key
  | .AddString key _ => key
  | .AddTime key _ => key
  | .AddUint key _ => key
  | .AddUint64 key _ => key
  | .AddUint32 key _ => key
  | .AddUint16 key _ => key
  | .AddUint8 key _ => key
  | .AddUintptr key _ => key
  | .AddReflected key _ => key
  | .OpenNamespace key => key

/-- The encoder after a call (the error three of the methods return is nil
and is left out). -/
def EncoderOp.run (rt : GoRuntime) (op : EncoderOp) (z : zapOtelEncoder) : zapOtelEncoder :=
  match op with
  | .AddArray key marshaler => (zapOtelEncoder.AddArray z key marshaler).1
  | .AddObject key marshaler => (zapOtelEncoder.AddObject z key marshaler).1
  | .AddBinary key value => zapOtelEncoder.AddBinary z key value
  | .AddByteString key value => zapOtelEncoder.AddByteString z key value
  | .AddBool key value => zapOtelEncoder.AddBool z key value
  | .AddComplex128 key value => zapOtelEncoder.AddComplex128 z key value
  | .AddComplex64 key value => zapOtelEncoder.AddComplex64 z key value
  | .AddDuration key value => zapOtelEncoder.AddDuration rt z key value
  | .AddFloat64 key value => zapOtelEncoder.AddFloat64 z key value
  | .AddFloat32 key value => zapOtelEncoder.AddFloat32 rt z key value
  | .AddInt key value => zapOtelEncoder.AddInt z key value
  | .AddInt64 key value => zapOtelEncoder.AddInt64 z key value
  | .AddInt32 key value => zapOtelEncoder.AddInt32 z key value
  | .AddInt16 key value => zapOtelEncoder.AddInt16 z key value
  | .AddInt8 key value => zapOtelEncoder.AddInt8 z key value
  | .AddString key value => zapOtelEncoder.AddString z key value
  | .AddTime key value => zapOtelEncoder.AddTime rt z key value
  | .AddUint key value => zapOtelEncoder.AddUint z key value
  | .AddUint64 key value => zapOtelEncoder.AddUint64 z key value
  | .AddUint32 key value => zapOtelEncoder.AddUint32 z key value
  | .AddUint16 key value => zapOtelEncoder.AddUint16 z key value
  | .AddUint8 key value => zapOtelEncoder.AddUint8 z key value
  | .AddUintptr key value => zapOtelEncoder.AddUintptr z key value
  | .AddReflected key value => (zapOtelEncoder.AddReflected z key value).1
  | .OpenNamespace key => zapOtelEncoder.OpenNamespace z key

/-- The encoder after a sequence of calls, made in order. -/
def EncoderOp.runAll (rt : GoRuntime) (ops : List EncoderOp) (z : zapOtelEncoder) :
    zapOtelEncoder :=
  ops.foldl (fun enc op => op.run rt enc) z

/-! ## `go.uber.org/zap/zapcore`: what the adapter uses -/

/-- The `zapcore.Level` ordinal, a Go `int8`: `-1` debug, `0` info, `1` warn,
`2` error, `3` dpanic, `4` panic, `5` fatal. -/
abbrev Level := Int

/-- The values a `zapcore.Level` (an `int8`) can hold. -/
def Level.InRange (l : Level) : Prop := -128 ≤ l ∧ l ≤ 127

instance (l : Level) : Decidable (Level.InRange l) := by
  unfold Level.InRange; infer_instance

/-- Addition in the type `zapcore.Level`, that is in `int8`: the sum wraps. -/
def int8Add (a b : Int) : Int := wrapSigned 8 (a + b)

/-- `Level.String()`: the lower-case name of a standard level, and
`Level(n)` for any other ordinal. -/
def Level.String (l : Level) : GoString :=
  if l = -1 then str "debug"
  else if l = 0 then str "info"
  else if l = 1 then str "warn"
  else if l = 2 then str "error"
  else if l = 3 then str "dpanic"
  else if l = 4 then str "panic"
  else if l = 5 then str "fatal"
  else str ("Level(" ++ toString l ++ ")")

/-- `zapcore.EntryCaller`. -/
structure EntryCaller where
  Defined : Bool
  PC : Nat
  File : GoString
  Line : Int
  Function : GoString
  deriving DecidableEq, Repr

/-- `zapcore.Entry`. -/
structure Entry where
  Level : Level
  Time : Time
  LoggerName : GoString
  Message : GoString
  Caller : EntryCaller
  Stack : GoString
  deriving DecidableEq, Repr

/-- What `encodeStringer` sees of the value of a stringer field: its `String()`
returns a text, panics on a nil pointer receiver, or panics otherwise
(`recovered` is the `%v` rendering of the recovered value). -/
inductive StringerValue where
  | returns (text : GoString)
  | panicsOnNilPointer
  | panics (recovered : GoString)
  deriving DecidableEq, Repr

/-- What `encodeError` sees of the error of an error field: `Error()` returns
`basic` and the error is neither a group nor a formatter, is an `errorGroup`
with its causes, or is a `fmt.Formatter` whose `%+v` rendering is `verbose`; or
`Error()` panics, on a nil pointer receiver or otherwise. -/
inductive ErrorValue where
  | plain (basic : GoString)
  | errorGroup (basic : GoString) (causes : ArrayMarshaler)
  | formatter (basic verbose : GoString)
  | panicsOnNilPointer
  | panics (recovered : GoString)
  deriving DecidableEq, Repr

/-- The object of an inline field: the calls its `MarshalLogObject(enc)` makes
on the encoder, in order, and the error it returns. -/
structure InlineMarshaler where
  calls : List EncoderOp
  err : GoError
  deriving DecidableEq, Repr

/-- A `zapcore.Field`, as the tagged value it is: the constructor is the
`FieldType` tag, the arguments are the key and the value the tag selects. Every
tag that `AddTo` handles has a constructor; a field with any other tag (the
zero `Field`) makes `AddTo` panic and is not a value of this type. -/
inductive Field where
  | ArrayMarshalerType (key : GoString) (value : ArrayMarshaler)
  | ObjectMarshalerType (key : GoString) (value : ObjectMarshaler)
  | BinaryType (key : GoString) (value : Bytes)
  | BoolType (key : GoString) (value : Bool)
  | ByteStringType (key : GoString) (value : Bytes)
  | Complex128Type (key : GoString) (value : Complex128)
  | Complex64Type (key : GoString) (value : Complex64)
  | DurationType (key : GoString) (value : Duration)
  | Float64Type (key : GoString) (value : Float64)
  | Float32Type (key : GoString) (value : Float32)
  | Int64Type (key : GoString) (value : Int)
  | Int32Type (key : GoString) (value : Int)
  | Int16Type (key : GoString) (value : Int)
  | Int8Type (key : GoString) (value : Int)
  | StringType (key : GoString) (value : GoString)
  | TimeType (key : GoString) (value : Time)
  | TimeFullType (key : GoString) (value : Time)
  | Uint64Type (key : GoString) (value : Nat)
  | Uint32Type (key : GoString) (value : Nat)
  | Uint16Type (key : GoString) (value : Nat)
  | Uint8Type (key : GoString) (value : Nat)
  | UintptrType (key : GoString) (value : Nat)
  | ReflectType (key : GoString) (value : Reflected)
  | NamespaceType (key : GoString)
  | InlineMarshalerType (key : GoString) (value : InlineMarshaler)
  | StringerType (key : GoString) (value : StringerValue)
  | ErrorType (key : GoString) (value : ErrorValue)
  | SkipType (key : GoString)
  deriving DecidableEq, Repr

/-- `encodeStringer(key, stringer, enc)` of zapcore: the text of `String()` is
added under the key; a panic on a nil pointer is recovered and adds `<nil>`;
any other panic is recovered and returned as the error `PANIC=...`. -/
def encodeStringer (key : GoString) (stringer : StringerValue) (enc : zapOtelEncoder) :
    zapOtelEncoder × GoError :=
  match stringer with
  | .returns text => (enc.AddString key text, none)
  | .panicsOnNilPointer => (enc.AddString key (str "<nil>"), none)
  | .panics recovered => (enc, some (str "PANIC=" ++ recovered))

/-- `encodeError(key, err, enc)` of zapcore: the text of `Error()` is added
under the key; then the causes of an `errorGroup` are added as an array under
the key followed by `Causes`, and the `%+v` rendering of a `fmt.Formatter` as a
string under the key followed by `Verbose` when it differs from the text.
Panics of `Error()` are handled as in `encodeStringer`. -/
def encodeError (key : GoString) (err : ErrorValue) (enc : zapOtelEncoder) :
    zapOtelEncoder × GoError :=
  match err with
  | .plain basic => (enc.AddString key basic, none)
  | .errorGroup basic causes => (enc.AddString key basic).AddArray (key ++ str "Causes") causes
  | .formatter basic verbose =>
    let enc1 := enc.AddString key basic
    if verbose ≠ basic then (enc1.AddString (key ++ str "Verbose") verbose, none)
    else (enc1, none)
  | .panicsOnNilPointer => (enc.AddString key (str "<nil>"), none)
  | .panics recovered => (enc, some (str "PANIC=" ++ recovered))

namespace Field

/-- The key of a field. -/
def Key : Field → GoString
  | ArrayMarshalerType key _ | ObjectMarshalerType key _ | BinaryType key _
  | BoolType key _ | ByteStringType key _ | Complex128Type key _ | Complex64Type key _
  | DurationType key _ | Float64Type key _ | Float32Type key _ | Int64Type key _
  | Int32Type key _ | Int16Type key _ | Int8Type key _ | StringType key _ | TimeType key _
  | TimeFullType key _ | Uint64Type key _ | Uint32Type key _ | Uint16Type key _
  | Uint8Type key _ | UintptrType key _ | ReflectType key _ | NamespaceType key
  | InlineMarshalerType key _ | StringerType key _ | ErrorType key _ | SkipType key => key

/-- `Field.AddTo(enc)`: the switch on the type tag calls the encoder method of
that tag; an inline field hands the encoder to its marshaler, a stringer field
and an error field go through `encodeStringer` and `encodeError`, a skip field
does nothing. When the case returns a non-nil error, the error text is added
as a string under the key followed by `Error`. -/
def AddTo (rt : GoRuntime) (f : Field) (enc : zapOtelEncoder) : zapOtelEncoder :=
  let res : zapOtelEncoder × GoError :=
    match f with
    | ArrayMarshalerType key value => enc.AddArray key value
    | ObjectMarshalerType key value => enc.AddObject key value
    | BinaryType key value => (enc.AddBinary key value, none)
    | BoolType key value => (enc.AddBool key value, none)
    | ByteStringType key value => (enc.AddByteString key value, none)
    | Complex128Type key value => (enc.AddComplex128 key value, none)
    | Complex64Type key value => (enc.AddComplex64 key value, none)
    | DurationType key value => (enc.AddDuration rt key value, none)
    | Float64Type key value => (enc.AddFloat64 key value, none)
    | Float32Type key value => (enc.AddFloat32 rt key value, none)
    | Int64Type key value => (enc.AddInt64 key value, none)
    | Int32Type key value => (enc.AddInt32 key value, none)
    | Int16Type key value => (enc.AddInt16 key value, none)
    | Int8Type key value => (enc.AddInt8 key value, none)
    | StringType key value => (enc.AddString key value, none)
    | TimeType key value => (enc.AddTime rt key value, none)
    | TimeFullType key value => (enc.AddTime rt key value, none)
    | Uint64Type key value => (enc.AddUint64 key value, none)
    | Uint32Type key value => (enc.AddUint32 key value, none)
    | Uint16Type key value => (enc.AddUint16 key value, none)
    | Uint8Type key value => (enc.AddUint8 key value, none)
    | UintptrType key value => (enc.AddUintptr key value, none)
    | ReflectType key value => enc.AddReflected key value
    | NamespaceType key => (enc.OpenNamespace key, none)
    | InlineMarshalerType _ value => (EncoderOp.runAll rt value.calls enc, value.err)
    | StringerType key value => encodeStringer key value enc
    | ErrorType key value => encodeError key value enc
    | SkipType _ => (enc, none)
  match res.2 with
  | none => res.1
  | some err => res.1.AddString (f.Key ++ str "Error") err

/-- The field kinds for which the encoder has no conversion: array, object,
reflected value, namespace marker and pointer-sized integer. -/
def isDropped : Field → Bool
  | ArrayMarshalerType _ _ | ObjectMarshalerType _ _ | ReflectType _ _
  | NamespaceType _ | UintptrType _ _ => true
  | _ => false

/-- The skip fields, for which `AddTo` calls nothing. -/
def isSkip : Field → Bool
  | SkipType _ => true
  | _ => false

/-- The error fields and the inline fields, for which `AddTo` can make more than
one call of the encoder. -/
def isErrorOrInline : Field → Bool
  | ErrorType _ _ | InlineMarshalerType _ _ => true
  | _ => false

end Field

/-! ## `github.com/agoda-com/opentelemetry-logs-go/logs`: what the adapter uses -/

/-- `logs.SeverityNumber`, a Go `int32`. -/
abbrev SeverityNumber := Int

/-- The fields of `logs.LogRecordConfig` that `Write` sets; each is a pointer,
`none` being nil. The fields it leaves at their zero value are not listed. -/
structure LogRecordConfig where
  Timestamp : Option Time
  Body : Option GoString
  SeverityNumber : Option SeverityNumber
  SeverityText : Option GoString
  Attributes : Option (List KeyValue)
  deriving DecidableEq, Repr

/-- `logs.LogRecord`, with the same fields. -/
structure LogRecord where
  timestamp : Option Time
  body : Option GoString
  severityNumber : Option SeverityNumber
  severityText : Option GoString
  attributes : Option (List KeyValue)
  deriving DecidableEq, Repr

/-- `logs.NewLogRecord(config)`: copies the configuration into the record. -/
def NewLogRecord (config : LogRecordConfig) : LogRecord :=
  { timestamp := config.Timestamp
    body := config.Body
    severityNumber := config.SeverityNumber
    severityText := config.SeverityText
    attributes := config.Attributes }

/-- The interface `logs.Logger`: one operation `Emit(record)` with no result,
acting on the logger's own state `σ`. -/
structure Logger (σ : Type) where
  Emit : LogRecord → σ → σ

/-- A logger whose `Emit` does nothing and records nothing. -/
def stubLogger : Logger Unit := { Emit := fun _ s => s }

/-- A logger that keeps every record it is handed, oldest first. -/
def recordingLogger : Logger (List LogRecord) := { Emit := fun r s => s ++ [r] }

/-! ## `otellogger.go` -/

/-- The adapter: its injected logger. -/
structure OtelZapCore (σ : Type) where
  logger : Logger σ

/-- A `zapcore.Core` value: this repository's adapter, a core of the host
framework (known by a handle only), the fan-out `multiCore` over a list of
cores, or the no-op core. -/
inductive Core (σ : Type) where
  | otelZap (o : OtelZapCore σ)
  | host (handle : Nat)
  | multiCore (cores : List (Core σ))
  | nop

/-- `zapcore.CheckedEntry`: the entry and the cores that will receive its
`Write`. -/
structure CheckedEntry (σ : Type) where
  Entry : Entry
  ErrorOutput : Option Nat
  dirty : Bool
  should : Nat
  cores : List (Core σ)

/-- `(*CheckedEntry).AddCore(ent, core)`: a nil receiver is replaced by a fresh
checked entry for `ent`; the core is appended to the list of cores. -/
def CheckedEntry.AddCore {σ : Type} (ce : Option (CheckedEntry σ)) (ent : ZapBridge.Entry)
    (core : Core σ) : Option (CheckedEntry σ) :=
  let ce1 : CheckedEntry σ :=
    match ce with
    | none => { Entry := ent, ErrorOutput := none, dirty := false, should := 0, cores := [] }
    | some c => c
  some { ce1 with cores := ce1.cores ++ [core] }

def NewCustomOtelZapCore {σ : Type} (logger : Logger σ) : Core σ :=
  .otelZap { logger := logger }

def convertZapLevelToOtelSeverity (zapLevel : Level) : SeverityNumber :=
  wrapSigned 32 (int8Add zapLevel 2)

namespace OtelZapCore

variable {σ : Type}

def Enabled (_o : OtelZapCore σ) (_level : Level) : Bool :=
  true

def With (o : OtelZapCore σ) (_fields : List Field) : Core σ :=
  .otelZap o

def Check (o : OtelZapCore σ) (ent : Entry) (ce : Option (CheckedEntry σ)) :
    Option (CheckedEntry σ) :=
  CheckedEntry.AddCore ce ent (.otelZap o)

/-- `Write(ent, fields)`: the result is the returned error and the state of the
injected logger after the call, `s` being its state before. -/
def Write (rt : GoRuntime) (o : OtelZapCore σ) (ent : Entry) (fields : List Field) (s : σ) :
    GoError × σ :=
  let otelSeverity := convertZapLevelToOtelSeverity ent.Level
  let severityText := Level.String ent.Level
  let otelEncoder := fields.foldl (fun enc field => field.AddTo rt enc)
    (newZapOtelEncoder fields.length)
  let lrc : LogRecordConfig :=
    { Timestamp := some ent.Time
      Body := some ent.Message
      SeverityNumber := some otelSeverity
      SeverityText := some severityText
      Attributes := some otelEncoder.OtelAttributes }
  let logRecord := NewLogRecord lrc
  let s1 := o.logger.Emit logRecord s
  (none, s1)

end OtelZapCore

/-- The encoder part of `Write` on its own: a fresh encoder sized to the field
list, every field replayed into it in order, and the attribute list it then
holds. -/
def encodeFields (rt : GoRuntime) (fields : List Field) : List KeyValue :=
  (fields.foldl (fun enc field => field.AddTo rt enc)
    (newZapOtelEncoder fields.length)).OtelAttributes

/-- The record `Write` builds for an entry and a field list. -/
def recordOf (rt : GoRuntime) (ent : Entry) (fields : List Field) : LogRecord :=
  { timestamp := some ent.Time
    body := some ent.Message
    severityNumber := some (convertZapLevelToOtelSeverity ent.Level)
    severityText := some (Level.String ent.Level)
    attributes := some (encodeFields rt fields) }

/-- A runtime for evaluating examples: durations and times are rendered by a
fixed text, a `float32` keeps its bit pattern. -/
def sampleRuntime : GoRuntime :=
  { durationString := fun _ => str "1s"
    timeString := fun _ => str "2000-01-01 00:00:00 +0000 UTC"
    float64OfFloat32 := fun x => ⟨x.bits⟩ }

/-- An entry for evaluating examples: an info message. -/
def sampleEntry : Entry :=
  { Level := 0
    Time := ⟨0, 0, 0⟩
    LoggerName := str "main"
    Message := str "started"
    Caller := ⟨false, 0, [], 0, []⟩
    Stack := [] }

/-- The four variants of `attribute.Value` the design supports: string,
boolean, int64 and float64. -/
def Value.isSupported : Value → Bool
  | .STRING _ | .BOOL _ | .INT64 _ | .FLOAT64 _ => true
  | _ => false

/-! ## The `zapcore.Core` interface and `AttachToZapLogger` -/

/-- The cores of the host framework, known by a handle only: the handle of the
core their `With` returns, and what their `Write` returns and does to the state
`τ` of the host's own outputs. -/
structure HostCores (τ : Type) where
  With : Nat → List Field → Nat
  Write : Nat → Entry → List Field → τ → GoError × τ

/-- `multierr.Append(left, right)`: nil is neutral, two errors are joined. -/
def multierrAppend (left right : GoError) : GoError :=
  match left, right with
  | none, r => r
  | some l, none => some l
  | some l, some r => some (l ++ str "; " ++ r)

mutual
/-- `core.With(fields)` through the interface: the adapter's own `With`, the
host core's, and for a fan-out the fan-out of the `With` of each core. -/
def Core.With {σ τ : Type} (hc : HostCores τ) : Core σ → List Field → Core σ
  | .otelZap o, fields => o.With fields
  | .host h, fields => .host (hc.With h fields)
  | .multiCore cores, fields => .multiCore (Core.WithEach hc cores fields)
  | .nop, _ => .nop
/-- The loop of `multiCore.With`. -/
def Core.WithEach {σ τ : Type} (hc : HostCores τ) : List (Core σ) → List Field → List (Core σ)
  | [], _ => []
  | c :: cs, fields => Core.With hc c fields :: Core.WithEach hc cs fields
end

mutual
/-- `core.Write(ent, fields)` through the interface, on the pair of the host's
output state and the state of the adapter's logger: the adapter's own `Write`,
the host core's, and for a fan-out the `Write` of each core in order, the
errors joined. -/
def Core.Write {σ τ : Type} (rt : GoRuntime) (hc : HostCores τ) :
    Core σ → Entry → List Field → τ × σ → GoError × (τ × σ)
  | .otelZap o, ent, fields, w =>
    let r := o.Write rt ent fields w.2
    (r.1, (w.1, r.2))
  | .host h, ent, fields, w =>
    let r := hc.Write h ent fields w.1
    (r.1, (r.2, w.2))
  | .multiCore cores, ent, fields, w => Core.WriteEach rt hc cores ent fields none w
  | .nop, _, _, w => (none, w)
/-- The loop of `multiCore.Write`, `err` being the errors joined so far. -/
def Core.WriteEach {σ τ : Type} (rt : GoRuntime) (hc : HostCores τ) :
    List (Core σ) → Entry → List Field → GoError → τ × σ → GoError × (τ × σ)
  | [], _, _, err, w => (err, w)
  | c :: cs, ent, fields, err, w =>
    let r := Core.Write rt hc c ent fields w
    Core.WriteEach rt hc cs ent fields (multierrAppend err r.1) r.2
end

/-- The process environment: the value of a variable, `none` when it is not
defined. -/
abbrev Environ := GoString → Option GoString

/-- `os.LookupEnv(key)`: the value and whether the variable is defined. -/
def LookupEnv (env : Environ) (key : GoString) : GoString × Bool :=
  match env key with
  | some value => (value, true)
  | none => ([], false)

/-- The byte `c` with an ASCII upper-case letter replaced by its lower-case
letter (`c += 'a' - 'A'`). -/
def lowerByte (c : UInt8) : UInt8 :=
  if 65 ≤ c ∧ c ≤ 90 then c + 32 else c

/-- `strings.ToLower(s)`: a string of ASCII bytes is returned as it is when it
has no upper-case letter and with its upper-case letters lowered otherwise; a
string with a byte outside ASCII goes through `strings.Map(unicode.ToLower, s)`,
which is the parameter `mapUnicodeToLower`. -/
def ToLower (mapUnicodeToLower : GoString → GoString) (s : GoString) : GoString :=
  let isASCII := s.all (fun c => c < 128)
  let hasUpper := s.any (fun c => 65 ≤ c ∧ c ≤ 90)
  if isASCII then
    if !hasUpper then s else s.map lowerByte
  else
    mapUnicodeToLower s

/-- The string is `true` written in any mix of upper-case and lower-case
letters: four bytes, `t` or `T`, `r` or `R`, `u` or `U`, `e` or `E`. -/
def equalsTrueIgnoringCase : GoString → Bool
  | [a, b, c, d] =>
    (a == 116 || a == 84) && (b == 114 || b == 82) && (c == 117 || c == 85)
      && (d == 101 || d == 69)
  | _ => false

/-- The parts of `zap.Logger` kept: its core and its plain settings. -/
structure ZapLogger (σ : Type) where
  core : Core σ
  development : Bool
  addCaller : Bool
  name : GoString
  callerSkip : Int

/-- `zap.WrapCore(f)`: the option that replaces the core by `f(core)`. -/
def WrapCore {σ : Type} (f : Core σ → Core σ) : ZapLogger σ → ZapLogger σ :=
  fun log => { log with core := f log.core }

/-- `logger.WithOptions(opts...)`: a copy of the logger with every option
applied in order. -/
def ZapLogger.WithOptions {σ : Type} (log : ZapLogger σ)
    (opts : List (ZapLogger σ → ZapLogger σ)) : ZapLogger σ :=
  opts.foldl (fun c opt => opt c) log

/-- `zapcore.NewTee(cores...)`: the no-op core for no core, the core itself
for one, the fan-out `multiCore` otherwise. -/
def NewTee {σ : Type} (cores : List (Core σ)) : Core σ :=
  match cores with
  | [] => .nop
  | [c] => c
  | _ => .multiCore cores

/-- A `logs.LoggerProvider`: `Logger(name)` gives a logger. -/
structure LoggerProvider (σ : Type) where
  Logger : GoString → ZapBridge.Logger σ

def otelSdkDisabled : GoString := str "OTEL_SDK_DISABLED"

def instrumentationLibraryName : GoString :=
  str "github.com/odigos-io/opentelemetry-zap-bridge"

/-- `NewOtelZapCore()`; the provider that `autosdk.NewLoggerProvider(ctx)`
builds is the parameter `newLoggerProvider`. -/
def NewOtelZapCore {σ : Type} (newLoggerProvider : LoggerProvider σ) : Core σ :=
  let loggerProvider := newLoggerProvider
  let logger := loggerProvider.Logger instrumentationLibraryName
  .otelZap { logger := logger }

def AttachToZapLogger {σ : Type} (env : Environ) (mapUnicodeToLower : GoString → GoString)
    (newLoggerProvider : LoggerProvider σ) (logger : ZapLogger σ) : ZapLogger σ :=
  let (otelSdlDisabled, defined) := LookupEnv env otelSdkDisabled
  if defined && ToLower mapUnicodeToLower otelSdlDisabled == str "true" then
    logger
  else
    logger.WithOptions [WrapCore (fun core =>
      let otelZapLogger := NewOtelZapCore newLoggerProvider
      NewTee [core, otelZapLogger])]

/-- An environment in which only `OTEL_SDK_DISABLED` may be defined. -/
def sampleEnviron (value : Option GoString) : Environ :=
  fun key => if key = otelSdkDisabled then value else none

/-- A provider whose loggers record what they are handed. -/
def sampleProvider : LoggerProvider (List LogRecord) := { Logger := fun _ => recordingLogger }

/-- A logger of the host framework with one host core. -/
def sampleZapLogger : ZapLogger (List LogRecord) :=
  { core := .host 0, development := false, addCaller := false, name := str "app",
    callerSkip := 0 }

/-! ## Integer conversions -/

/-- A value inside the signed 64-bit range is unchanged by `int64`. -/
theorem int64_eq_self (v : Int) (hlo : -2 ^ 63 ≤ v) (hhi : v < 2 ^ 63) : int64 v = v := by
  unfold int64 wrapSigned
  norm_num at hlo hhi ⊢
  omega

/-- A value in the upper half of the unsigned 64-bit range is read back by
`int64` as that value minus `2^64`. -/
theorem int64_eq_sub (v : Int) (hlo : 2 ^ 63 ≤ v) (hhi : v < 2 ^ 64) :
    int64 v = v - 2 ^ 64 := by
  unfold int64 wrapSigned
  norm_num at hlo hhi ⊢
  omega

/-- On the platform modelled, `int` is `int64`. -/
theorem int_eq_int64 (v : Int) : int v = int64 v := rfl

/-- For an unsigned 64-bit value, the signed reading is strictly positive
exactly on `1 .. 2^63 - 1`. -/
theorem int64_pos_iff (V : Nat) (hV : V < 2 ^ 64) :
    0 < int64 (V : Int) ↔ 1 ≤ V ∧ V ≤ 2 ^ 63 - 1 := by
  by_cases h : V < 2 ^ 63
  · rw [int64_eq_self V (by have := Int.ofNat_nonneg V; norm_num at this ⊢; omega)
      (by exact_mod_cast h)]
    norm_num at h ⊢
    omega
  · have h1 : (2 : Int) ^ 63 ≤ V := by exact_mod_cast Nat.le_of_not_lt h
    have h2 : (V : Int) < 2 ^ 64 := by exact_mod_cast hV
    rw [int64_eq_sub V h1 h2]
    norm_num at h h1 h2 ⊢
    omega

/-! ## The uint64 conversion (C1, C2) -/

/-- C1. The uint64 value 0 is at most `0x7FFFFFFFFFFFFFFF`, yet `AddUint64`
appends the string attribute `<overflowed uint64>` for it, on every encoder
state and key, and not the int64 attribute with value `int64(0) = 0`: the test
`asInt64 > 0` excludes zero. -/
theorem AddUint64_zero_is_overflowed (z : zapOtelEncoder) (key : GoString) :
    (0 : Nat) ≤ 0x7FFFFFFFFFFFFFFF ∧
    z.AddUint64 key 0
      = ⟨z.OtelAttributes ++ [⟨key, .STRING (str "<overflowed uint64>")⟩]⟩ ∧
    z.AddUint64 key 0 ≠ ⟨z.OtelAttributes ++ [⟨key, .INT64 (int64 0)⟩]⟩ := by
  refine ⟨by norm_num, rfl, ?_⟩
  intro h
  have h1 : z.AddUint64 key 0
      = ⟨z.OtelAttributes ++ [⟨key, .STRING (str "<overflowed uint64>")⟩]⟩ := rfl
  rw [h1] at h
  simp at h

/-- C2. For a uint64 value `V`, `AddUint64` appends exactly one attribute under
the given key: the int64 attribute with value `int64(V)`, which is `V` itself,
exactly when the signed reading of `V` is strictly positive, that is when
`1 ≤ V ≤ 2^63 - 1`; in every other case the string attribute
`<overflowed uint64>`. The two outcomes are different attributes. -/
theorem AddUint64_int64_iff_positive (z : zapOtelEncoder) (key : GoString) (V : Nat)
    (hV : V < 2 ^ 64) :
    (0 < int64 (V : Int) ↔ 1 ≤ V ∧ V ≤ 2 ^ 63 - 1) ∧
    (1 ≤ V ∧ V ≤ 2 ^ 63 - 1 →
      z.AddUint64 key V = ⟨z.OtelAttributes ++ [⟨key, .INT64 (int64 V)⟩]⟩ ∧
      int64 (V : Int) = V) ∧
    (¬ (1 ≤ V ∧ V ≤ 2 ^ 63 - 1) →
      z.AddUint64 key V
        = ⟨z.OtelAttributes ++ [⟨key, .STRING (str "<overflowed uint64>")⟩]⟩) ∧
    (z.AddUint64 key V = ⟨z.OtelAttributes ++ [⟨key, .INT64 (int64 V)⟩]⟩ ↔
      1 ≤ V ∧ V ≤ 2 ^ 63 - 1) := by
  have hpos := int64_pos_iff V hV
  have hyes : 1 ≤ V ∧ V ≤ 2 ^ 63 - 1 →
      z.AddUint64 key V = ⟨z.OtelAttributes ++ [⟨key, .INT64 (int64 V)⟩]⟩ := by
    intro h
    have h0 : int64 (V : Int) > 0 := hpos.mpr h
    simp [zapOtelEncoder.AddUint64, Attribute.Int64, h0]
  have hno : ¬ (1 ≤ V ∧ V ≤ 2 ^ 63 - 1) →
      z.AddUint64 key V
        = ⟨z.OtelAttributes ++ [⟨key, .STRING (str "<overflowed uint64>")⟩]⟩ := by
    intro h
    have h0 : ¬ int64 (V : Int) > 0 := fun h1 => h (hpos.mp h1)
    simp [zapOtelEncoder.AddUint64, Attribute.String, h0]
  refine ⟨hpos, fun h => ⟨hyes h, ?_⟩, hno, ⟨fun h => ?_, hyes⟩⟩
  · apply int64_eq_self
    · have := Int.ofNat_nonneg V
      norm_num
      omega
    · have h2 : V < 2 ^ 63 := by
        have := h.2
        norm_num at this ⊢
        omega
      exact_mod_cast h2
  · by_contra hc
    rw [hno hc] at h
    simp at h

/-- Witness for C2: the largest signed value is kept as an int64 attribute. -/
theorem AddUint64_int64_iff_positive_witness :
    (newZapOtelEncoder 1).AddUint64 (str "n") 0x7FFFFFFFFFFFFFFF
      = ⟨[⟨str "n", .INT64 (int64 (0x7FFFFFFFFFFFFFFF : Nat))⟩]⟩ ∧
    int64 ((0x7FFFFFFFFFFFFFFF : Nat) : Int) = (0x7FFFFFFFFFFFFFFF : Nat) :=
  (AddUint64_int64_iff_positive (newZapOtelEncoder 1) (str "n") 0x7FFFFFFFFFFFFFFF
    (by norm_num)).2.1 (by norm_num)

/-! ## Method calls only append -/

/-- A method call appends to the attribute list what it produces on a fresh
encoder; the attributes already there are kept as they are. -/
theorem EncoderOp.run_append (rt : GoRuntime) (op : EncoderOp) (z : zapOtelEncoder) :
    (op.run rt z).OtelAttributes
      = z.OtelAttributes ++ (op.run rt (newZapOtelEncoder 1)).OtelAttributes := by
  cases op <;>
    simp [EncoderOp.run, newZapOtelEncoder,
      zapOtelEncoder.AddArray,
      zapOtelEncoder.AddObject,
      zapOtelEncoder.AddBinary,
      zapOtelEncoder.AddByteString,
      zapOtelEncoder.AddBool,
      zapOtelEncoder.AddComplex128,
      zapOtelEncoder.AddComplex64,
      zapOtelEncoder.AddDuration,
      zapOtelEncoder.AddFloat64,
      zapOtelEncoder.AddFloat32,
      zapOtelEncoder.AddInt,
      zapOtelEncoder.AddInt64,
      zapOtelEncoder.AddInt32,
      zapOtelEncoder.AddInt16,
      zapOtelEncoder.AddInt8,
      zapOtelEncoder.AddString,
      zapOtelEncoder.AddTime,
      zapOtelEncoder.AddUint,
      zapOtelEncoder.AddUint64,
      zapOtelEncoder.AddUint32,
      zapOtelEncoder.AddUint16,
      zapOtelEncoder.AddUint8,
      zapOtelEncoder.AddUintptr,
      zapOtelEncoder.AddReflected,
      zapOtelEncoder.OpenNamespace]
  case AddUint64 key value => split <;> rfl

/-- A sequence of method calls appends what it produces on a fresh encoder. -/
theorem EncoderOp.runAll_append (rt : GoRuntime) (ops : List EncoderOp) (z : zapOtelEncoder) :
    (EncoderOp.runAll rt ops z).OtelAttributes
      = z.OtelAttributes
        ++ (EncoderOp.runAll rt ops (newZapOtelEncoder 1)).OtelAttributes := by
  induction ops generalizing z with
  | nil => simp [EncoderOp.runAll, newZapOtelEncoder]
  | cons op ops ih =>
    have hstep : ∀ e : zapOtelEncoder,
        EncoderOp.runAll rt (op :: ops) e = EncoderOp.runAll rt ops (op.run rt e) :=
      fun _ => rfl
    rw [hstep, hstep, ih (op.run rt z), ih (op.run rt (newZapOtelEncoder 1)),
      EncoderOp.run_append rt op z, List.append_assoc]

/-! ## Order of the attributes (C3) -/

/-- Replaying one field appends to the attribute list what the field produces
on a fresh encoder; the attributes already there are kept as they are. -/
theorem Field.AddTo_attributes (rt : GoRuntime) (f : Field) (enc : zapOtelEncoder) :
    (f.AddTo rt enc).OtelAttributes
      = enc.OtelAttributes ++ (f.AddTo rt (newZapOtelEncoder 1)).OtelAttributes := by
  cases f
  case InlineMarshalerType key value =>
    have h := EncoderOp.runAll_append rt value.calls enc
    cases he : value.err <;> simp [Field.AddTo, he, zapOtelEncoder.AddString, h]
  case StringerType key value =>
    cases value <;> simp [Field.AddTo, encodeStringer, zapOtelEncoder.AddString, newZapOtelEncoder]
  case ErrorType key value =>
    cases value
    case formatter basic verbose =>
      by_cases hv : verbose = basic <;>
        simp [Field.AddTo, encodeError, hv, zapOtelEncoder.AddString, newZapOtelEncoder]
    all_goals
      simp [Field.AddTo, encodeError, zapOtelEncoder.AddString, zapOtelEncoder.AddArray,
        newZapOtelEncoder]
  case Uint64Type key value =>
    simp only [Field.AddTo, zapOtelEncoder.AddUint64, newZapOtelEncoder]
    split <;> simp
  all_goals
    simp [Field.AddTo, newZapOtelEncoder,
      zapOtelEncoder.AddArray,
      zapOtelEncoder.AddObject,
      zapOtelEncoder.AddBinary,
      zapOtelEncoder.AddByteString,
      zapOtelEncoder.AddBool,
      zapOtelEncoder.AddComplex128,
      zapOtelEncoder.AddComplex64,
      zapOtelEncoder.AddDuration,
      zapOtelEncoder.AddFloat64,
      zapOtelEncoder.AddFloat32,
      zapOtelEncoder.AddInt,
      zapOtelEncoder.AddInt64,
      zapOtelEncoder.AddInt32,
      zapOtelEncoder.AddInt16,
      zapOtelEncoder.AddInt8,
      zapOtelEncoder.AddString,
      zapOtelEncoder.AddTime,
      zapOtelEncoder.AddUint,
      zapOtelEncoder.AddUint64,
      zapOtelEncoder.AddUint32,
      zapOtelEncoder.AddUint16,
      zapOtelEncoder.AddUint8,
      zapOtelEncoder.AddUintptr,
      zapOtelEncoder.AddReflected,
      zapOtelEncoder.OpenNamespace]

/-- Replaying a field list into any encoder appends, field after field, what
each field produces on a fresh encoder. -/
theorem foldl_AddTo_attributes (rt : GoRuntime) (fields : List Field) (enc : zapOtelEncoder) :
    (fields.foldl (fun enc field => field.AddTo rt enc) enc).OtelAttributes
      = enc.OtelAttributes
        ++ fields.flatMap (fun f => (f.AddTo rt (newZapOtelEncoder 1)).OtelAttributes) := by
  induction fields generalizing enc with
  | nil => simp
  | cons f fs ih =>
    rw [List.foldl_cons, ih, Field.AddTo_attributes rt f enc, List.flatMap_cons,
      List.append_assoc]

/-- The encoding of a field list is the concatenation of the encodings of its
fields, each taken alone. -/
theorem encodeFields_eq_flatMap (rt : GoRuntime) (fields : List Field) :
    encodeFields rt fields = fields.flatMap (fun f => encodeFields rt [f]) := by
  unfold encodeFields
  rw [foldl_AddTo_attributes]
  simp only [newZapOtelEncoder, List.nil_append, List.foldl_cons, List.foldl_nil]

/-- The encoding of two field lists one after the other. -/
theorem encodeFields_append (rt : GoRuntime) (fs1 fs2 : List Field) :
    encodeFields rt (fs1 ++ fs2) = encodeFields rt fs1 ++ encodeFields rt fs2 := by
  rw [encodeFields_eq_flatMap rt (fs1 ++ fs2), encodeFields_eq_flatMap rt fs1,
    encodeFields_eq_flatMap rt fs2, List.flatMap_append]

/-- `Write` hands the injected logger the record `recordOf`, once, and returns
nil. -/
theorem Write_eq (σ : Type) (rt : GoRuntime) (o : OtelZapCore σ) (ent : Entry)
    (fields : List Field) (s : σ) :
    o.Write rt ent fields s = (none, o.logger.Emit (recordOf rt ent fields) s) := rfl

/-- C3. The attribute list of the record that `Write` emits (read off a
recording logger) is the encoding of the field list by a fresh encoder; that
encoding is the in-order concatenation of what each field produces on its own,
and the encoding of `fs1 ++ fs2` is the encoding of `fs1` followed by the
encoding of `fs2`: nothing is reordered, sorted or merged. -/
theorem Write_attributes_in_field_order (rt : GoRuntime) (ent : Entry)
    (fs1 fs2 : List Field) :
    (∀ fs : List Field,
      ((OtelZapCore.mk recordingLogger).Write rt ent fs []).2.map LogRecord.attributes
        = [some (encodeFields rt fs)]) ∧
    (∀ fs : List Field, encodeFields rt fs = fs.flatMap (fun f => encodeFields rt [f])) ∧
    encodeFields rt (fs1 ++ fs2) = encodeFields rt fs1 ++ encodeFields rt fs2 :=
  ⟨fun _ => rfl, encodeFields_eq_flatMap rt, encodeFields_append rt fs1 fs2⟩

/-- A mixed list of six fields with a repeated key and a dropped field: the
attributes come out in the order of the fields, both `id` attributes kept. -/
theorem encodeFields_mixed_list :
    encodeFields sampleRuntime
      [.StringType (str "id") (str "a"), .BoolType (str "ok") true, .Int64Type (str "n") (-3),
       .UintptrType (str "p") 4096, .BinaryType (str "blob") (some [1, 2]),
       .Uint64Type (str "id") 7]
      = [⟨str "id", .STRING (str "a")⟩, ⟨str "ok", .BOOL true⟩, ⟨str "n", .INT64 (-3)⟩,
         ⟨str "blob", .STRING (str "<binary data>")⟩, ⟨str "id", .INT64 7⟩] := by
  decide

/-! ## Kinds without a conversion (C4) -/

/-- A field of a dropped kind leaves the encoder as it is. -/
theorem Field.AddTo_of_isDropped (rt : GoRuntime) (f : Field) (enc : zapOtelEncoder)
    (h : f.isDropped = true) : f.AddTo rt enc = enc := by
  cases f <;> simp [Field.isDropped] at h <;> rfl

/-- A field that is neither of a dropped kind nor a skip, error or inline field
appends exactly one attribute. -/
theorem Field.AddTo_of_not_isDropped (rt : GoRuntime) (f : Field) (enc : zapOtelEncoder)
    (h : f.isDropped = false) (hs : f.isSkip = false) (he : f.isErrorOrInline = false) :
    ∃ kv : KeyValue, f.AddTo rt enc = ⟨enc.OtelAttributes ++ [kv]⟩ := by
  cases f <;> simp [Field.isDropped] at h <;> simp [Field.isSkip] at hs <;>
    simp [Field.isErrorOrInline] at he
  case Uint64Type key value =>
    by_cases hp : int64 (value : Int) > 0
    · exact ⟨Attribute.Int64 key (int64 value), by
        simp [Field.AddTo, zapOtelEncoder.AddUint64, hp]⟩
    · exact ⟨Attribute.String key (str "<overflowed uint64>"), by
        simp [Field.AddTo, zapOtelEncoder.AddUint64, hp]⟩
  case StringerType key value =>
    cases value
    case returns text => exact ⟨Attribute.String key text, rfl⟩
    case panicsOnNilPointer => exact ⟨Attribute.String key (str "<nil>"), rfl⟩
    case panics recovered =>
      exact ⟨Attribute.String (key ++ str "Error") (str "PANIC=" ++ recovered), rfl⟩
  all_goals exact ⟨_, rfl⟩

/-- Length of the attribute list after replaying, into an encoder, a field
list without skip, error and inline fields. -/
theorem foldl_AddTo_length (rt : GoRuntime) (fields : List Field) (enc : zapOtelEncoder)
    (hk : ∀ f ∈ fields, f.isSkip = false ∧ f.isErrorOrInline = false) :
    (fields.foldl (fun enc field => field.AddTo rt enc) enc).OtelAttributes.length
      = enc.OtelAttributes.length + fields.countP (fun f => !f.isDropped) := by
  induction fields generalizing enc with
  | nil => simp
  | cons f fs ih =>
    have hf := hk f (List.mem_cons_self f fs)
    have hfs : ∀ g ∈ fs, g.isSkip = false ∧ g.isErrorOrInline = false :=
      fun g hg => hk g (List.mem_cons_of_mem f hg)
    rw [List.foldl_cons, ih _ hfs, List.countP_cons]
    cases hd : f.isDropped
    · obtain ⟨kv, hkv⟩ := Field.AddTo_of_not_isDropped rt f enc hd hf.1 hf.2
      rw [hkv]
      simp
      omega
    · rw [Field.AddTo_of_isDropped rt f enc hd]
      simp

/-- C4, as the code has it. `AddArray`, `AddObject`, `AddReflected`,
`OpenNamespace` and `AddUintptr` leave the attribute list as it was, for every
key, value and encoder state, and the first three return a nil error.
Consequently, for a field list that holds no skip, error or inline field, the
encoding has as many attributes as the list has fields of the other kinds: with
`N` fields of the five kinds and `M` others, `N + M` being the length of the
list, the output has length `M`, wherever the `N` stand. -/
theorem dropped_kinds_add_no_attribute (rt : GoRuntime) (z : zapOtelEncoder) (key : GoString)
    (am : ArrayMarshaler) (om : ObjectMarshaler) (rv : Reflected) (ptr : Nat)
    (fields : List Field)
    (hk : ∀ f ∈ fields, f.isSkip = false ∧ f.isErrorOrInline = false) :
    ((z.AddArray key am).1.OtelAttributes = z.OtelAttributes ∧ (z.AddArray key am).2 = none) ∧
    ((z.AddObject key om).1.OtelAttributes = z.OtelAttributes ∧
      (z.AddObject key om).2 = none) ∧
    ((z.AddReflected key rv).1.OtelAttributes = z.OtelAttributes ∧
      (z.AddReflected key rv).2 = none) ∧
    (z.OpenNamespace key).OtelAttributes = z.OtelAttributes ∧
    (z.AddUintptr key ptr).OtelAttributes = z.OtelAttributes ∧
    (encodeFields rt fields).length = fields.countP (fun f => !f.isDropped) ∧
    fields.countP (fun f => f.isDropped) + fields.countP (fun f => !f.isDropped)
      = fields.length := by
  refine ⟨⟨rfl, rfl⟩, ⟨rfl, rfl⟩, ⟨rfl, rfl⟩, rfl, rfl, ?_, ?_⟩
  · unfold encodeFields
    rw [foldl_AddTo_length rt fields _ hk]
    simp [newZapOtelEncoder]
  · clear hk
    induction fields with
    | nil => rfl
    | cons f fs ih =>
      rw [List.countP_cons, List.countP_cons, List.length_cons]
      cases hd : f.isDropped <;> simp <;> omega

/-- Witness for C4: two fields of the five kinds among three others, a stringer
field included; the output has three attributes. -/
theorem dropped_kinds_add_no_attribute_witness :
    (encodeFields sampleRuntime
        [.StringType (str "a") (str "x"), .UintptrType (str "p") 1,
         .StringerType (str "s") (.returns (str "y")), .NamespaceType (str "ns"),
         .Int8Type (str "n") 5]).length
      = [Field.StringType (str "a") (str "x"), .UintptrType (str "p") 1,
         .StringerType (str "s") (.returns (str "y")), .NamespaceType (str "ns"),
         .Int8Type (str "n") 5].countP (fun f => !f.isDropped) ∧
    [Field.StringType (str "a") (str "x"), .UintptrType (str "p") 1,
         .StringerType (str "s") (.returns (str "y")), .NamespaceType (str "ns"),
         .Int8Type (str "n") 5].countP (fun f => !f.isDropped) = 3 :=
  ⟨(dropped_kinds_add_no_attribute sampleRuntime (newZapOtelEncoder 0) (str "k") ⟨0⟩ ⟨0⟩ ⟨0⟩ 0
      [.StringType (str "a") (str "x"), .UintptrType (str "p") 1,
       .StringerType (str "s") (.returns (str "y")), .NamespaceType (str "ns"),
       .Int8Type (str "n") 5] (by decide)).2.2.2.2.2.1,
   by decide⟩

/-- Counterexample for C4 as stated. A list of one skip field has no field of
the five kinds and one field of another kind, and its encoding is empty; a list
of one error field whose error is a formatter has one field of another kind,
and its encoding has two attributes. In neither is the output length `M = 1`. -/
theorem dropped_kinds_length_counterexample :
    [Field.SkipType (str "")].countP (fun f => !f.isDropped) = 1 ∧
    (encodeFields sampleRuntime [Field.SkipType (str "")]).length = 0 ∧
    [Field.ErrorType (str "error") (.formatter (str "boom") (str "boom: at main.go:7"))].countP
      (fun f => !f.isDropped) = 1 ∧
    (encodeFields sampleRuntime
      [Field.ErrorType (str "error") (.formatter (str "boom") (str "boom: at main.go:7"))]).length
      = 2 ∧
    ¬ (∀ fields : List Field,
        (encodeFields sampleRuntime fields).length = fields.countP (fun f => !f.isDropped)) := by
  refine ⟨by decide, by decide, by decide, by decide, ?_⟩
  intro h
  have h1 := h [Field.SkipType (str "")]
  revert h1
  decide

/-! ## Direct conversions (C5) -/

/-- C5. On every encoder state and for every key, `AddBool` and `AddString`
append exactly one attribute, with that key and the same boolean or string;
`AddInt8`, `AddInt16`, `AddInt32`, `AddInt64`, `AddInt`, `AddUint8`, `AddUint16`
and `AddUint32` append exactly one int64 attribute with that key whose value is
the input integer itself, for every input in the range of the parameter type.
Two inputs of one such operation that give the same encoder are equal. -/
theorem direct_kinds_append_same_value (z : zapOtelEncoder) (key : GoString) :
    (∀ b : Bool, z.AddBool key b = ⟨z.OtelAttributes ++ [⟨key, .BOOL b⟩]⟩) ∧
    (∀ s : GoString, z.AddString key s = ⟨z.OtelAttributes ++ [⟨key, .STRING s⟩]⟩) ∧
    (∀ v : Int, -2 ^ 7 ≤ v → v < 2 ^ 7 →
      z.AddInt8 key v = ⟨z.OtelAttributes ++ [⟨key, .INT64 v⟩]⟩) ∧
    (∀ v : Int, -2 ^ 15 ≤ v → v < 2 ^ 15 →
      z.AddInt16 key v = ⟨z.OtelAttributes ++ [⟨key, .INT64 v⟩]⟩) ∧
    (∀ v : Int, -2 ^ 31 ≤ v → v < 2 ^ 31 →
      z.AddInt32 key v = ⟨z.OtelAttributes ++ [⟨key, .INT64 v⟩]⟩) ∧
    (∀ v : Int, -2 ^ 63 ≤ v → v < 2 ^ 63 →
      z.AddInt64 key v = ⟨z.OtelAttributes ++ [⟨key, .INT64 v⟩]⟩) ∧
    (∀ v : Int, -2 ^ 63 ≤ v → v < 2 ^ 63 →
      z.AddInt key v = ⟨z.OtelAttributes ++ [⟨key, .INT64 v⟩]⟩) ∧
    (∀ v : Nat, v < 2 ^ 8 →
      z.AddUint8 key v = ⟨z.OtelAttributes ++ [⟨key, .INT64 v⟩]⟩) ∧
    (∀ v : Nat, v < 2 ^ 16 →
      z.AddUint16 key v = ⟨z.OtelAttributes ++ [⟨key, .INT64 v⟩]⟩) ∧
    (∀ v : Nat, v < 2 ^ 32 →
      z.AddUint32 key v = ⟨z.OtelAttributes ++ [⟨key, .INT64 v⟩]⟩) ∧
    (∀ b c : Bool, z.AddBool key b = z.AddBool key c → b = c) ∧
    (∀ s t : GoString, z.AddString key s = z.AddString key t → s = t) ∧
    (∀ v w : Int, -2 ^ 7 ≤ v → v < 2 ^ 7 → -2 ^ 7 ≤ w → w < 2 ^ 7 →
      z.AddInt8 key v = z.AddInt8 key w → v = w) ∧
    (∀ v w : Int, -2 ^ 15 ≤ v → v < 2 ^ 15 → -2 ^ 15 ≤ w → w < 2 ^ 15 →
      z.AddInt16 key v = z.AddInt16 key w → v = w) ∧
    (∀ v w : Int, -2 ^ 31 ≤ v → v < 2 ^ 31 → -2 ^ 31 ≤ w → w < 2 ^ 31 →
      z.AddInt32 key v = z.AddInt32 key w → v = w) ∧
    (∀ v w : Int, -2 ^ 63 ≤ v → v < 2 ^ 63 → -2 ^ 63 ≤ w → w < 2 ^ 63 →
      z.AddInt64 key v = z.AddInt64 key w → v = w) ∧
    (∀ v w : Int, -2 ^ 63 ≤ v → v < 2 ^ 63 → -2 ^ 63 ≤ w → w < 2 ^ 63 →
      z.AddInt key v = z.AddInt key w → v = w) ∧
    (∀ v w : Nat, v < 2 ^ 8 → w < 2 ^ 8 → z.AddUint8 key v = z.AddUint8 key w → v = w) ∧
    (∀ v w : Nat, v < 2 ^ 16 → w < 2 ^ 16 →
      z.AddUint16 key v = z.AddUint16 key w → v = w) ∧
    (∀ v w : Nat, v < 2 ^ 32 → w < 2 ^ 32 →
      z.AddUint32 key v = z.AddUint32 key w → v = w) := by
  have s8 : ∀ v : Int, -2 ^ 7 ≤ v → v < 2 ^ 7 → int64 v = v := fun v h1 h2 =>
    int64_eq_self v (by norm_num at h1 ⊢; omega) (by norm_num at h2 ⊢; omega)
  have s16 : ∀ v : Int, -2 ^ 15 ≤ v → v < 2 ^ 15 → int64 v = v := fun v h1 h2 =>
    int64_eq_self v (by norm_num at h1 ⊢; omega) (by norm_num at h2 ⊢; omega)
  have s32 : ∀ v : Int, -2 ^ 31 ≤ v → v < 2 ^ 31 → int64 v = v := fun v h1 h2 =>
    int64_eq_self v (by norm_num at h1 ⊢; omega) (by norm_num at h2 ⊢; omega)
  have s64 : ∀ v : Int, -2 ^ 63 ≤ v → v < 2 ^ 63 → int64 v = v := fun v h1 h2 =>
    int64_eq_self v h1 h2
  have u8 : ∀ v : Nat, v < 2 ^ 8 → int64 (v : Int) = v := fun v h =>
    int64_eq_self v (by norm_num; omega) (by norm_num at h ⊢; omega)
  have u16 : ∀ v : Nat, v < 2 ^ 16 → int64 (v : Int) = v := fun v h =>
    int64_eq_self v (by norm_num; omega) (by norm_num at h ⊢; omega)
  have u32 : ∀ v : Nat, v < 2 ^ 32 → int64 (v : Int) = v := fun v h =>
    int64_eq_self v (by norm_num; omega) (by norm_num at h ⊢; omega)
  have e8 : ∀ v : Int, -2 ^ 7 ≤ v → v < 2 ^ 7 →
      z.AddInt8 key v = ⟨z.OtelAttributes ++ [⟨key, .INT64 v⟩]⟩ := fun v h1 h2 => by
    simp [zapOtelEncoder.AddInt8, Attribute.Int64, s8 v h1 h2]
  have e16 : ∀ v : Int, -2 ^ 15 ≤ v → v < 2 ^ 15 →
      z.AddInt16 key v = ⟨z.OtelAttributes ++ [⟨key, .INT64 v⟩]⟩ := fun v h1 h2 => by
    simp [zapOtelEncoder.AddInt16, Attribute.Int64, s16 v h1 h2]
  have e32 : ∀ v : Int, -2 ^ 31 ≤ v → v < 2 ^ 31 →
      z.AddInt32 key v = ⟨z.OtelAttributes ++ [⟨key, .INT64 v⟩]⟩ := fun v h1 h2 => by
    simp [zapOtelEncoder.AddInt32, Attribute.Int64, s32 v h1 h2]
  have e64 : ∀ v : Int, -2 ^ 63 ≤ v → v < 2 ^ 63 →
      z.AddInt64 key v = ⟨z.OtelAttributes ++ [⟨key, .INT64 v⟩]⟩ := fun v _ _ => rfl
  have eint : ∀ v : Int, -2 ^ 63 ≤ v → v < 2 ^ 63 →
      z.AddInt key v = ⟨z.OtelAttributes ++ [⟨key, .INT64 v⟩]⟩ := fun v h1 h2 => by
    simp [zapOtelEncoder.AddInt, Attribute.Int, int_eq_int64, s64 v h1 h2]
  have f8 : ∀ v : Nat, v < 2 ^ 8 →
      z.AddUint8 key v = ⟨z.OtelAttributes ++ [⟨key, .INT64 v⟩]⟩ := fun v h => by
    simp [zapOtelEncoder.AddUint8, Attribute.Int64, u8 v h]
  have f16 : ∀ v : Nat, v < 2 ^ 16 →
      z.AddUint16 key v = ⟨z.OtelAttributes ++ [⟨key, .INT64 v⟩]⟩ := fun v h => by
    simp [zapOtelEncoder.AddUint16, Attribute.Int64, u16 v h]
  have f32 : ∀ v : Nat, v < 2 ^ 32 →
      z.AddUint32 key v = ⟨z.OtelAttributes ++ [⟨key, .INT64 v⟩]⟩ := fun v h => by
    simp [zapOtelEncoder.AddUint32, Attribute.Int64, u32 v h]
  have inj : ∀ v w : Int,
      (⟨z.OtelAttributes ++ [⟨key, .INT64 v⟩]⟩ : zapOtelEncoder)
        = ⟨z.OtelAttributes ++ [⟨key, .INT64 w⟩]⟩ → v = w := fun v w h => by
    simpa using h
  refine ⟨fun _ => rfl, fun _ => rfl, e8, e16, e32, e64, eint, f8, f16, f32, ?_, ?_, ?_, ?_,
    ?_, ?_, ?_, ?_, ?_, ?_⟩
  · intro b c h
    simpa [zapOtelEncoder.AddBool, Attribute.Bool] using h
  · intro s t h
    simpa [zapOtelEncoder.AddString, Attribute.String] using h
  · intro v w h1 h2 h3 h4 h
    rw [e8 v h1 h2, e8 w h3 h4] at h
    exact inj v w h
  · intro v w h1 h2 h3 h4 h
    rw [e16 v h1 h2, e16 w h3 h4] at h
    exact inj v w h
  · intro v w h1 h2 h3 h4 h
    rw [e32 v h1 h2, e32 w h3 h4] at h
    exact inj v w h
  · intro v w h1 h2 h3 h4 h
    rw [e64 v h1 h2, e64 w h3 h4] at h
    exact inj v w h
  · intro v w h1 h2 h3 h4 h
    rw [eint v h1 h2, eint w h3 h4] at h
    exact inj v w h
  · intro v w h1 h2 h
    rw [f8 v h1, f8 w h2] at h
    exact_mod_cast inj v w h
  · intro v w h1 h2 h
    rw [f16 v h1, f16 w h2] at h
    exact_mod_cast inj v w h
  · intro v w h1 h2 h
    rw [f32 v h1, f32 w h2] at h
    exact_mod_cast inj v w h

/-- Witness for C5: the least `int8` and the greatest `uint32`, on an encoder
that already holds an attribute. -/
theorem direct_kinds_append_same_value_witness :
    (zapOtelEncoder.mk [⟨str "a", .BOOL true⟩]).AddInt8 (str "k") (-128)
      = ⟨[⟨str "a", .BOOL true⟩, ⟨str "k", .INT64 (-128)⟩]⟩ ∧
    (zapOtelEncoder.mk [⟨str "a", .BOOL true⟩]).AddUint32 (str "k") 4294967295
      = ⟨[⟨str "a", .BOOL true⟩, ⟨str "k", .INT64 4294967295⟩]⟩ :=
  ⟨(direct_kinds_append_same_value ⟨[⟨str "a", .BOOL true⟩]⟩ (str "k")).2.2.1 (-128)
      (by norm_num) (by norm_num),
   (direct_kinds_append_same_value ⟨[⟨str "a", .BOOL true⟩]⟩ (str "k")).2.2.2.2.2.2.2.2.2.1
      4294967295 (by norm_num)⟩

/-! ## Redacted kinds (C6) -/

/-- C6. `AddBinary`, `AddComplex64` and `AddComplex128` append exactly one
string attribute with the given key and the fixed text `<binary data>`,
`<complex64>` and `<complex128>`, whatever the value: any two values, a nil or
empty blob included, give the same encoder. -/
theorem redacted_kinds_ignore_value (z : zapOtelEncoder) (key : GoString) :
    (∀ b : Bytes,
      z.AddBinary key b = ⟨z.OtelAttributes ++ [⟨key, .STRING (str "<binary data>")⟩]⟩) ∧
    (∀ c : Complex64,
      z.AddComplex64 key c = ⟨z.OtelAttributes ++ [⟨key, .STRING (str "<complex64>")⟩]⟩) ∧
    (∀ c : Complex128,
      z.AddComplex128 key c = ⟨z.OtelAttributes ++ [⟨key, .STRING (str "<complex128>")⟩]⟩) ∧
    (∀ b c : Bytes, z.AddBinary key b = z.AddBinary key c) ∧
    z.AddBinary key none = z.AddBinary key (some []) ∧
    (∀ c d : Complex64, z.AddComplex64 key c = z.AddComplex64 key d) ∧
    (∀ c d : Complex128, z.AddComplex128 key c = z.AddComplex128 key d) :=
  ⟨fun _ => rfl, fun _ => rfl, fun _ => rfl, fun _ _ => rfl, rfl, fun _ _ => rfl,
    fun _ _ => rfl⟩

/-! ## Severity of a level (C7) -/

/-- Up to ordinal 125 the severity number is the level ordinal plus two. -/
theorem convertZapLevelToOtelSeverity_eq_add_two (l : Int) (hlo : -128 ≤ l)
    (hhi : l ≤ 125) : convertZapLevelToOtelSeverity l = l + 2 := by
  show wrapSigned 32 (wrapSigned 8 ((l : Int) + 2)) = (l : Int) + 2
  unfold wrapSigned
  norm_num
  omega

/-- For the two highest ordinals the sum leaves the range of `int8` and wraps:
the severity number is the level ordinal minus 254. -/
theorem convertZapLevelToOtelSeverity_eq_sub (l : Int) (hlo : 126 ≤ l) (hhi : l ≤ 127) :
    convertZapLevelToOtelSeverity l = l - 254 := by
  show wrapSigned 32 (wrapSigned 8 ((l : Int) + 2)) = (l : Int) - 254
  unfold wrapSigned
  norm_num
  omega

/-- C7. The level ordinals 126 and 127 are values of the level type, and
`convertZapLevelToOtelSeverity` returns -128 and -127 for them, not 128 and
129: `zapLevel + 2` is computed in `int8` before it is converted to the
severity type. Debug (-1) gives 1 and info (0) gives 2. -/
theorem convertZapLevelToOtelSeverity_wraps_at_126 :
    Level.InRange 126 ∧ Level.InRange 127 ∧
    convertZapLevelToOtelSeverity 126 = -128 ∧
    convertZapLevelToOtelSeverity 127 = -127 ∧
    convertZapLevelToOtelSeverity 126 ≠ 126 + 2 ∧
    convertZapLevelToOtelSeverity 127 ≠ 127 + 2 ∧
    convertZapLevelToOtelSeverity (-1) = 1 ∧
    convertZapLevelToOtelSeverity 0 = 2 := by
  decide

/-! ## Write (C8, C9) -/

/-- C8. `Write` returns nil for every entry, every field list and every
injected logger in every state, in particular for the empty field list, for
fields that are dropped or overflow, and with the stub logger whose `Emit`
records nothing. -/
theorem Write_returns_nil (σ : Type) (rt : GoRuntime) (o : OtelZapCore σ) (ent : Entry)
    (fields : List Field) (s : σ) :
    (o.Write rt ent fields s).1 = none ∧
    ((OtelZapCore.mk stubLogger).Write rt ent fields ()).1 = none ∧
    (o.Write rt ent [] s).1 = none ∧
    (o.Write rt ent [.UintptrType (str "p") 1, .Uint64Type (str "n") (2 ^ 64 - 1)] s).1
      = none :=
  ⟨rfl, rfl, rfl, rfl⟩

/-- C9. One `Write` call changes the state of the injected logger by one
`Emit`, of the record whose timestamp is the entry's time, whose body is the
entry's message, whose severity number is
`convertZapLevelToOtelSeverity(ent.Level)`, whose severity text is
`ent.Level.String()` and whose attributes are the encoding of the given fields
by a fresh encoder; a recording logger holds exactly that one record more. The
entry and the field list are passed by value and are not part of the result. -/
theorem Write_emits_one_record (σ : Type) (rt : GoRuntime) (o : OtelZapCore σ)
    (ent : Entry) (fields : List Field) (s : σ) (log : List LogRecord) :
    o.Write rt ent fields s
      = (none, o.logger.Emit
          { timestamp := some ent.Time
            body := some ent.Message
            severityNumber := some (convertZapLevelToOtelSeverity ent.Level)
            severityText := some (Level.String ent.Level)
            attributes := some (encodeFields rt fields) } s) ∧
    ((OtelZapCore.mk recordingLogger).Write rt ent fields log).2
      = log ++ [{ timestamp := some ent.Time
                  body := some ent.Message
                  severityNumber := some (convertZapLevelToOtelSeverity ent.Level)
                  severityText := some (Level.String ent.Level)
                  attributes := some (encodeFields rt fields) }] ∧
    ((OtelZapCore.mk recordingLogger).Write rt ent fields log).2.length = log.length + 1 := by
  refine ⟨rfl, rfl, ?_⟩
  rw [Write_eq]
  simp [recordingLogger]

/-- The record of an info entry with two fields, as a recording logger sees
it. -/
theorem Write_sample_record :
    ((OtelZapCore.mk recordingLogger).Write sampleRuntime sampleEntry
        [.StringType (str "user") (str "ann"), .Int32Type (str "tries") 3] []).2
      = [{ timestamp := some ⟨0, 0, 0⟩
           body := some (str "started")
           severityNumber := some 2
           severityText := some (str "info")
           attributes := some [⟨str "user", .STRING (str "ann")⟩,
             ⟨str "tries", .INT64 3⟩] }] := by
  decide

/-! ## Enabled and Check (C10) -/

/-- C10. `Enabled` is true for every level, the ordinals below debug and above
fatal included. `Check` never returns nil: given a candidate it returns that
candidate with the adapter appended to its cores and nothing else changed;
given the nil candidate it returns a new one for the entry whose only core is
the adapter. In both cases the adapter is the last core of the result. -/
theorem adapter_never_filters (σ : Type) (o : OtelZapCore σ) :
    (∀ level : Level, o.Enabled level = true) ∧
    (∀ (ent : Entry) (c : CheckedEntry σ),
      o.Check ent (some c) = some { c with cores := c.cores ++ [Core.otelZap o] }) ∧
    (∀ ent : Entry,
      o.Check ent none
        = some { Entry := ent, ErrorOutput := none, dirty := false, should := 0,
                 cores := [Core.otelZap o] }) ∧
    (∀ (ent : Entry) (ce : Option (CheckedEntry σ)),
      ∃ c : CheckedEntry σ, o.Check ent ce = some c ∧
        c.cores.getLast? = some (Core.otelZap o)) := by
  refine ⟨fun _ => rfl, fun _ _ => rfl, fun _ => rfl, ?_⟩
  intro ent ce
  cases ce with
  | none => exact ⟨_, rfl, rfl⟩
  | some c =>
    refine ⟨_, rfl, ?_⟩
    simp

/-! ## The platform-width unsigned conversion (C13) -/

/-- C13. For a 64-bit `uint` value `v`, `AddUint` appends exactly one int64
attribute under the given key, whose value is the signed reading of the bits of
`v`: `v` itself when `v < 2^63`, and the negative number `v - 2^64` when
`v ≥ 2^63`. It never appends the `<overflowed uint64>` string and never leaves
the attribute list as it was. -/
theorem AddUint_reinterprets_bits (z : zapOtelEncoder) (key : GoString) (v : Nat)
    (hv : v < 2 ^ 64) :
    (v < 2 ^ 63 → z.AddUint key v = ⟨z.OtelAttributes ++ [⟨key, .INT64 v⟩]⟩) ∧
    (2 ^ 63 ≤ v →
      z.AddUint key v = ⟨z.OtelAttributes ++ [⟨key, .INT64 ((v : Int) - 2 ^ 64)⟩]⟩ ∧
      (v : Int) - 2 ^ 64 < 0) ∧
    (∃ i : Int, z.AddUint key v = ⟨z.OtelAttributes ++ [⟨key, .INT64 i⟩]⟩) ∧
    z.AddUint key v
      ≠ ⟨z.OtelAttributes ++ [⟨key, .STRING (str "<overflowed uint64>")⟩]⟩ ∧
    z.AddUint key v ≠ z ∧
    (z.AddUint key v).OtelAttributes.length = z.OtelAttributes.length + 1 := by
  have hform : z.AddUint key v
      = ⟨z.OtelAttributes ++ [⟨key, .INT64 (int64 (int64 (v : Int)))⟩]⟩ := rfl
  have hvi : (v : Int) < 2 ^ 64 := by exact_mod_cast hv
  have hnn : (0 : Int) ≤ v := Int.ofNat_nonneg v
  refine ⟨fun h => ?_, fun h => ⟨?_, ?_⟩, ⟨_, hform⟩, ?_, ?_, ?_⟩
  · have h1 : (v : Int) < 2 ^ 63 := by exact_mod_cast h
    have h2 : int64 (v : Int) = v := int64_eq_self _ (by norm_num; omega) h1
    rw [hform, h2, h2]
  · have h1 : (2 : Int) ^ 63 ≤ v := by exact_mod_cast h
    have h2 : int64 (v : Int) = v - 2 ^ 64 := int64_eq_sub _ h1 hvi
    have h3 : int64 ((v : Int) - 2 ^ 64) = v - 2 ^ 64 :=
      int64_eq_self _ (by norm_num at h1 ⊢; omega) (by norm_num at hvi ⊢; omega)
    rw [hform, h2, h3]
  · norm_num at hvi ⊢
    omega
  · rw [hform]
    simp
  · rw [hform]
    intro h
    have := congrArg (fun e => e.OtelAttributes.length) h
    simp at this
  · rw [hform]
    simp

/-- Witness for C13: the greatest `uint` value is read as -1. -/
theorem AddUint_reinterprets_bits_witness :
    (newZapOtelEncoder 1).AddUint (str "n") 18446744073709551615
      = ⟨[⟨str "n", .INT64 (((18446744073709551615 : Nat) : Int) - 2 ^ 64)⟩]⟩ ∧
    ((18446744073709551615 : Nat) : Int) - 2 ^ 64 < 0 :=
  (AddUint_reinterprets_bits (newZapOtelEncoder 1) (str "n") 18446744073709551615
    (by norm_num)).2.1 (by norm_num)

/-! ## At most one attribute per call (C14) -/

/-- A call leaves the attribute list as it was or appends one attribute whose
key is the key of the call. -/
theorem EncoderOp.run_attributes (rt : GoRuntime) (op : EncoderOp) (z : zapOtelEncoder) :
    (op.run rt z).OtelAttributes = z.OtelAttributes ∨
    ∃ v : Value, (op.run rt z).OtelAttributes = z.OtelAttributes ++ [⟨op.key, v⟩] := by
  cases op
  case AddUint64 key value =>
    right
    by_cases hp : int64 (value : Int) > 0
    · exact ⟨.INT64 (int64 value), by
        simp [EncoderOp.run, EncoderOp.key, zapOtelEncoder.AddUint64, Attribute.Int64, hp]⟩
    · exact ⟨.STRING (str "<overflowed uint64>"), by
        simp [EncoderOp.run, EncoderOp.key, zapOtelEncoder.AddUint64, Attribute.String, hp]⟩
  case AddArray => exact Or.inl rfl
  case AddObject => exact Or.inl rfl
  case AddReflected => exact Or.inl rfl
  case AddUintptr => exact Or.inl rfl
  case OpenNamespace => exact Or.inl rfl
  all_goals exact Or.inr ⟨_, rfl⟩

/-- A sequence of calls keeps the attributes that were there, in place, and
adds at most one attribute per call behind them. -/
theorem EncoderOp.runAll_attributes (rt : GoRuntime) (ops : List EncoderOp)
    (z : zapOtelEncoder) :
    ∃ added : List KeyValue,
      (EncoderOp.runAll rt ops z).OtelAttributes = z.OtelAttributes ++ added ∧
      added.length ≤ ops.length := by
  induction ops generalizing z with
  | nil => exact ⟨[], by simp [EncoderOp.runAll], by simp⟩
  | cons op ops ih =>
    obtain ⟨added, h1, h2⟩ := ih (op.run rt z)
    have hstep : EncoderOp.runAll rt (op :: ops) z = EncoderOp.runAll rt ops (op.run rt z) := rfl
    rcases EncoderOp.run_attributes rt op z with h | ⟨v, h⟩
    · exact ⟨added, by rw [hstep, h1, h], by simp; omega⟩
    · exact ⟨⟨op.key, v⟩ :: added, by rw [hstep, h1, h]; simp, by simp; omega⟩

/-- A field that is neither an error field nor an inline field leaves the
attribute list as it was or appends one attribute, whose key is the key of the
field or, for a stringer whose `String()` panics, that key followed by
`Error`. -/
theorem Field.AddTo_at_most_one (rt : GoRuntime) (f : Field) (z : zapOtelEncoder)
    (he : f.isErrorOrInline = false) :
    (f.AddTo rt z).OtelAttributes = z.OtelAttributes ∨
    ∃ kv : KeyValue, (f.AddTo rt z).OtelAttributes = z.OtelAttributes ++ [kv] ∧
      (kv.Key = f.Key ∨ kv.Key = f.Key ++ str "Error") := by
  cases f <;> simp [Field.isErrorOrInline] at he
  case Uint64Type key value =>
    right
    by_cases hp : int64 (value : Int) > 0
    · exact ⟨Attribute.Int64 key (int64 value), by
        simp [Field.AddTo, zapOtelEncoder.AddUint64, hp], Or.inl rfl⟩
    · exact ⟨Attribute.String key (str "<overflowed uint64>"), by
        simp [Field.AddTo, zapOtelEncoder.AddUint64, hp], Or.inl rfl⟩
  case StringerType key value =>
    right
    cases value
    case returns text => exact ⟨Attribute.String key text, rfl, Or.inl rfl⟩
    case panicsOnNilPointer => exact ⟨Attribute.String key (str "<nil>"), rfl, Or.inl rfl⟩
    case panics recovered =>
      exact ⟨Attribute.String (key ++ str "Error") (str "PANIC=" ++ recovered), rfl,
        Or.inr rfl⟩
  case ArrayMarshalerType => exact Or.inl rfl
  case ObjectMarshalerType => exact Or.inl rfl
  case ReflectType => exact Or.inl rfl
  case UintptrType => exact Or.inl rfl
  case NamespaceType => exact Or.inl rfl
  case SkipType => exact Or.inl rfl
  all_goals exact Or.inr ⟨_, rfl, Or.inl rfl⟩

/-- Replaying a field list without error and inline fields adds at most one
attribute per field. -/
theorem foldl_AddTo_length_le (rt : GoRuntime) (fields : List Field) (enc : zapOtelEncoder)
    (hk : ∀ f ∈ fields, f.isErrorOrInline = false) :
    (fields.foldl (fun enc field => field.AddTo rt enc) enc).OtelAttributes.length
      ≤ enc.OtelAttributes.length + fields.length := by
  induction fields generalizing enc with
  | nil => simp
  | cons f fs ih =>
    have hfs : ∀ g ∈ fs, g.isErrorOrInline = false :=
      fun g hg => hk g (List.mem_cons_of_mem f hg)
    have h1 := ih (f.AddTo rt enc) hfs
    rw [List.foldl_cons, List.length_cons]
    rcases Field.AddTo_at_most_one rt f enc (hk f (List.mem_cons_self f fs)) with h | ⟨kv, h, _⟩
    · rw [h] at h1
      omega
    · rw [h] at h1
      simp at h1
      omega

/-- C14, as the code has it. On every encoder state, a method call with key `k`
leaves the attribute list exactly as it was, or leaves it as it was with one
attribute appended whose key is `k` (the empty key included). A sequence of
calls therefore keeps every earlier attribute in place and appends at most one
attribute per call. A field that is neither an error field nor an inline field
makes at most one such call, so the encoding of a list of `n` such fields has at
most `n` attributes. -/
theorem each_call_appends_at_most_one (rt : GoRuntime) (z : zapOtelEncoder) :
    (∀ op : EncoderOp,
      (op.run rt z).OtelAttributes = z.OtelAttributes ∨
      ∃ v : Value, (op.run rt z).OtelAttributes = z.OtelAttributes ++ [⟨op.key, v⟩]) ∧
    (∀ f : Field, f.isErrorOrInline = false →
      (f.AddTo rt z).OtelAttributes = z.OtelAttributes ∨
      ∃ kv : KeyValue, (f.AddTo rt z).OtelAttributes = z.OtelAttributes ++ [kv] ∧
        (kv.Key = f.Key ∨ kv.Key = f.Key ++ str "Error")) ∧
    (z.AddBool [] true).OtelAttributes = z.OtelAttributes ++ [⟨[], .BOOL true⟩] ∧
    (∀ ops : List EncoderOp, ∃ added : List KeyValue,
      (EncoderOp.runAll rt ops z).OtelAttributes = z.OtelAttributes ++ added ∧
      added.length ≤ ops.length) ∧
    (∀ fields : List Field, (∀ f ∈ fields, f.isErrorOrInline = false) →
      (encodeFields rt fields).length ≤ fields.length) := by
  refine ⟨fun op => EncoderOp.run_attributes rt op z,
    fun f he => Field.AddTo_at_most_one rt f z he, rfl,
    fun ops => EncoderOp.runAll_attributes rt ops z, fun fields hk => ?_⟩
  have h := foldl_AddTo_length_le rt fields (newZapOtelEncoder fields.length) hk
  simpa [encodeFields, newZapOtelEncoder] using h

/-- Witness for C14: a list of four fields, one of them dropped and one
skipped, has an encoding of two attributes. -/
theorem each_call_appends_at_most_one_witness :
    (encodeFields sampleRuntime
        [.BoolType (str "ok") true, .ReflectType (str "r") ⟨0⟩, .SkipType (str ""),
         .Uint64Type (str "n") 0]).length
      ≤ [Field.BoolType (str "ok") true, .ReflectType (str "r") ⟨0⟩, .SkipType (str ""),
         .Uint64Type (str "n") 0].length :=
  (each_call_appends_at_most_one sampleRuntime (newZapOtelEncoder 0)).2.2.2.2
    [.BoolType (str "ok") true, .ReflectType (str "r") ⟨0⟩, .SkipType (str ""),
     .Uint64Type (str "n") 0] (by decide)

/-- Counterexample for C14 as stated. One error field whose error is a
formatter with a verbose rendering yields two attributes, under the key and
under the key followed by `Verbose`; one inline field whose marshaler adds
three values yields three. -/
theorem one_field_two_attributes_counterexample :
    encodeFields sampleRuntime
        [Field.ErrorType (str "error") (.formatter (str "boom") (str "boom: at main.go:7"))]
      = [⟨str "error", .STRING (str "boom")⟩,
         ⟨str "errorVerbose", .STRING (str "boom: at main.go:7")⟩] ∧
    (encodeFields sampleRuntime
        [Field.InlineMarshalerType (str "")
          ⟨[.AddString (str "a") (str "x"), .AddInt64 (str "b") 1, .AddBool (str "c") true],
            none⟩]).length = 3 ∧
    ¬ (∀ fields : List Field, (encodeFields sampleRuntime fields).length ≤ fields.length) := by
  refine ⟨by decide, by decide, ?_⟩
  intro h
  have h1 := h [Field.ErrorType (str "error")
    (.formatter (str "boom") (str "boom: at main.go:7"))]
  revert h1
  decide

/-! ## Variants of the attribute values (C15) -/

/-- A call keeps the attribute values within the four supported variants. -/
theorem EncoderOp.run_isSupported (rt : GoRuntime) (op : EncoderOp) (z : zapOtelEncoder)
    (hz : ∀ kv ∈ z.OtelAttributes, kv.Value.isSupported = true) :
    ∀ kv ∈ (op.run rt z).OtelAttributes, kv.Value.isSupported = true := by
  cases op
  case AddUint64 key value =>
    intro kv hkv
    by_cases hp : int64 (value : Int) > 0
    · simp [EncoderOp.run, zapOtelEncoder.AddUint64, Attribute.Int64, hp] at hkv
      rcases hkv with h | h
      · exact hz kv h
      · rw [h]; rfl
    · simp [EncoderOp.run, zapOtelEncoder.AddUint64, Attribute.String, hp] at hkv
      rcases hkv with h | h
      · exact hz kv h
      · rw [h]; rfl
  all_goals
    intro kv hkv
    simp only [EncoderOp.run, zapOtelEncoder.AddArray,
      zapOtelEncoder.AddObject,
      zapOtelEncoder.AddBinary,
      zapOtelEncoder.AddByteString,
      zapOtelEncoder.AddBool,
      zapOtelEncoder.AddComplex128,
      zapOtelEncoder.AddComplex64,
      zapOtelEncoder.AddDuration,
      zapOtelEncoder.AddFloat64,
      zapOtelEncoder.AddFloat32,
      zapOtelEncoder.AddInt,
      zapOtelEncoder.AddInt64,
      zapOtelEncoder.AddInt32,
      zapOtelEncoder.AddInt16,
      zapOtelEncoder.AddInt8,
      zapOtelEncoder.AddString,
      zapOtelEncoder.AddTime,
      zapOtelEncoder.AddUint,
      zapOtelEncoder.AddUint64,
      zapOtelEncoder.AddUint32,
      zapOtelEncoder.AddUint16,
      zapOtelEncoder.AddUint8,
      zapOtelEncoder.AddUintptr,
      zapOtelEncoder.AddReflected,
      zapOtelEncoder.OpenNamespace,
      Attribute.String, Attribute.Bool, Attribute.Int64, Attribute.Int, Attribute.Float64,
      List.mem_append, List.mem_singleton] at hkv
    first
      | exact hz kv hkv
      | (rcases hkv with h | h
         · exact hz kv h
         · rw [h]; rfl)

/-- C15. From a freshly constructed encoder, whatever its sizing hint, after
any finite sequence of method calls every attribute in the list has a value of
one of the four variants string, boolean, int64 and float64; and each of the
four is produced by some call. -/
theorem attribute_values_are_of_four_variants (rt : GoRuntime) (n : Nat)
    (ops : List EncoderOp) :
    (∀ kv ∈ (EncoderOp.runAll rt ops (newZapOtelEncoder n)).OtelAttributes,
      (∃ s, kv.Value = .STRING s) ∨ (∃ b, kv.Value = .BOOL b) ∨
      (∃ i, kv.Value = .INT64 i) ∨ (∃ x, kv.Value = .FLOAT64 x)) ∧
    (∀ (k s : GoString), (EncoderOp.run rt (.AddString k s) (newZapOtelEncoder n)).OtelAttributes
      = [⟨k, .STRING s⟩]) ∧
    (∀ (k : GoString) (b : Bool),
      (EncoderOp.run rt (.AddBool k b) (newZapOtelEncoder n)).OtelAttributes
        = [⟨k, .BOOL b⟩]) ∧
    (∀ (k : GoString) (i : Int),
      (EncoderOp.run rt (.AddInt64 k i) (newZapOtelEncoder n)).OtelAttributes
        = [⟨k, .INT64 i⟩]) ∧
    (∀ (k : GoString) (x : Float64),
      (EncoderOp.run rt (.AddFloat64 k x) (newZapOtelEncoder n)).OtelAttributes
        = [⟨k, .FLOAT64 x⟩]) := by
  refine ⟨?_, fun _ _ => rfl, fun _ _ => rfl, fun _ _ => rfl, fun _ _ => rfl⟩
  have key : ∀ (ops : List EncoderOp) (z : zapOtelEncoder),
      (∀ kv ∈ z.OtelAttributes, kv.Value.isSupported = true) →
      ∀ kv ∈ (EncoderOp.runAll rt ops z).OtelAttributes, kv.Value.isSupported = true := by
    intro ops
    induction ops with
    | nil => intro z hz; simpa [EncoderOp.runAll] using hz
    | cons op ops ih =>
      intro z hz
      exact ih (op.run rt z) (EncoderOp.run_isSupported rt op z hz)
  intro kv hkv
  have hs := key ops (newZapOtelEncoder n) (by simp [newZapOtelEncoder]) kv hkv
  cases hv : kv.Value <;> simp [hv, Value.isSupported] at hs ⊢

/-! ## A fresh encoder for every call (C16) -/

/-- C16. `newZapOtelEncoder(n)` holds no attribute, for every `n`; the same
sequence of calls gives the same attribute list from `newZapOtelEncoder(n)` and
from `newZapOtelEncoder(m)`; and after two `Write` calls in a row on one
adapter the logger has been handed the record of the first call and then the
record of the second, whose attributes are the encoding of the second call's
fields alone. -/
theorem encoder_state_does_not_leak (σ : Type) (rt : GoRuntime) (o : OtelZapCore σ)
    (ent1 ent2 : Entry) (fs1 fs2 : List Field) (s : σ) (log : List LogRecord) :
    (∀ n : Nat, (newZapOtelEncoder n).OtelAttributes = []) ∧
    (∀ (n m : Nat) (ops : List EncoderOp),
      (EncoderOp.runAll rt ops (newZapOtelEncoder n)).OtelAttributes
        = (EncoderOp.runAll rt ops (newZapOtelEncoder m)).OtelAttributes) ∧
    (∀ n : Nat, encodeFields rt fs2
      = (fs2.foldl (fun enc field => field.AddTo rt enc)
          (newZapOtelEncoder n)).OtelAttributes) ∧
    o.Write rt ent2 fs2 (o.Write rt ent1 fs1 s).2
      = (none, o.logger.Emit
          { timestamp := some ent2.Time
            body := some ent2.Message
            severityNumber := some (convertZapLevelToOtelSeverity ent2.Level)
            severityText := some (Level.String ent2.Level)
            attributes := some (encodeFields rt fs2) }
          (o.logger.Emit (recordOf rt ent1 fs1) s)) ∧
    (((OtelZapCore.mk recordingLogger).Write rt ent2 fs2
        ((OtelZapCore.mk recordingLogger).Write rt ent1 fs1 log).2).2.map
          LogRecord.attributes)
      = log.map LogRecord.attributes
        ++ [some (encodeFields rt fs1), some (encodeFields rt fs2)] := by
  refine ⟨fun _ => rfl, fun _ _ _ => rfl, fun _ => rfl, rfl, ?_⟩
  rw [Write_eq, Write_eq]
  simp [recordingLogger, recordOf]

/-- Two calls in a row with different fields: the second record has the
attribute of the second call only. -/
theorem Write_twice_sample :
    (((OtelZapCore.mk recordingLogger).Write sampleRuntime sampleEntry
        [.BoolType (str "second") true]
        ((OtelZapCore.mk recordingLogger).Write sampleRuntime sampleEntry
          [.StringType (str "first") (str "x"), .Int8Type (str "n") 1] []).2).2.map
            LogRecord.attributes)
      = [some [⟨str "first", .STRING (str "x")⟩, ⟨str "n", .INT64 1⟩],
         some [⟨str "second", .BOOL true⟩]] := by
  decide

/-! ## The reserved severity 0 (C17) -/

/-- C17. For a level ordinal `l` of the level type: the severity number is 0
exactly when `l = -2`, so it is never 0 for `l ≥ -1`; on the standard levels
debug (-1) to fatal (5) it lies in `1 .. 7`, and it is strictly increasing
there. -/
theorem severity_zero_only_below_debug (l l2 : Int) (hl : Level.InRange l) :
    (convertZapLevelToOtelSeverity l = 0 ↔ l = -2) ∧
    (-1 ≤ l → convertZapLevelToOtelSeverity l ≠ 0) ∧
    (-1 ≤ l → l ≤ 5 →
      1 ≤ convertZapLevelToOtelSeverity l ∧ convertZapLevelToOtelSeverity l ≤ 7) ∧
    (-1 ≤ l → l < l2 → l2 ≤ 5 →
      convertZapLevelToOtelSeverity l < convertZapLevelToOtelSeverity l2) := by
  have h1 : (-128 : Int) ≤ l := hl.1
  have h2 : l ≤ (127 : Int) := hl.2
  have hcase : (l ≤ 125 ∧ convertZapLevelToOtelSeverity l = l + 2) ∨
      (126 ≤ l ∧ convertZapLevelToOtelSeverity l = l - 254) := by
    by_cases h : l ≤ 125
    · exact Or.inl ⟨h, convertZapLevelToOtelSeverity_eq_add_two l h1 h⟩
    · exact Or.inr ⟨by omega, convertZapLevelToOtelSeverity_eq_sub l (by omega) h2⟩
  refine ⟨?_, ?_, ?_, ?_⟩
  · rcases hcase with ⟨hr, h⟩ | ⟨hr, h⟩ <;> rw [h] <;> unfold SeverityNumber <;>
      constructor <;> intro h0 <;> omega
  · intro h3
    rcases hcase with ⟨hr, h⟩ | ⟨hr, h⟩ <;> rw [h] <;> unfold SeverityNumber <;> omega
  · intro h3 h4
    rw [convertZapLevelToOtelSeverity_eq_add_two l h1 (by omega)]
    unfold SeverityNumber
    constructor <;> omega
  · intro h3 h4 h5
    rw [convertZapLevelToOtelSeverity_eq_add_two l h1 (by omega),
      convertZapLevelToOtelSeverity_eq_add_two l2 (by omega) (by omega)]
    unfold SeverityNumber
    omega

/-- Witness for C17: warn (1) and error (2). -/
theorem severity_zero_only_below_debug_witness :
    Level.InRange 1 ∧
    (1 ≤ convertZapLevelToOtelSeverity 1 ∧ convertZapLevelToOtelSeverity 1 ≤ 7) ∧
    convertZapLevelToOtelSeverity 1 < convertZapLevelToOtelSeverity 2 :=
  ⟨by decide,
   (severity_zero_only_below_debug 1 2 (by decide)).2.2.1 (by decide) (by decide),
   (severity_zero_only_below_debug 1 2 (by decide)).2.2.2 (by decide) (by decide)
     (by decide)⟩

/-! ## With (C11) -/

/-- Every attribute of an encoding is an attribute of the encoding of one of
the fields encoded, taken alone. -/
theorem encodeFields_mem (rt : GoRuntime) (fields : List Field) :
    ∀ kv ∈ encodeFields rt fields, ∃ f ∈ fields, kv ∈ encodeFields rt [f] := by
  intro kv hkv
  rw [encodeFields_eq_flatMap] at hkv
  exact List.mem_flatMap.mp hkv

/-- C11. `o.With(fs)` is the adapter `o` itself, whatever `fs`; so
`o.With(fs).With(gs)`, `o.With(gs)` and `o` are one core. A `Write` on
`o.With(fs)` does what the same `Write` on `o` does: it returns nil and hands
the logger the record of the entry and of the fields of that `Write`, in which
every attribute is an attribute of one of those fields, so nothing of `fs`. -/
theorem With_returns_the_adapter (σ τ : Type) (rt : GoRuntime) (hc : HostCores τ)
    (o : OtelZapCore σ) (fs gs : List Field) :
    o.With fs = Core.otelZap o ∧
    Core.With hc (o.With fs) gs = o.With gs ∧
    Core.With hc (o.With fs) gs = Core.otelZap o ∧
    (∀ (ent : Entry) (fields : List Field) (w : τ × σ),
      Core.Write rt hc (o.With fs) ent fields w
        = ((o.Write rt ent fields w.2).1, (w.1, (o.Write rt ent fields w.2).2))) ∧
    (∀ (ent : Entry) (fields : List Field) (w : τ × σ),
      Core.Write rt hc (o.With fs) ent fields w
        = (none, (w.1, o.logger.Emit
            { timestamp := some ent.Time
              body := some ent.Message
              severityNumber := some (convertZapLevelToOtelSeverity ent.Level)
              severityText := some (Level.String ent.Level)
              attributes := some (encodeFields rt fields) } w.2))) ∧
    (∀ fields : List Field, ∀ kv ∈ encodeFields rt fields,
      ∃ f ∈ fields, kv ∈ encodeFields rt [f]) := by
  refine ⟨rfl, ?_, ?_, ?_, ?_, encodeFields_mem rt⟩
  · simp [OtelZapCore.With, Core.With]
  · simp [OtelZapCore.With, Core.With]
  · intro ent fields w
    simp [OtelZapCore.With, Core.Write]
  · intro ent fields w
    simp [OtelZapCore.With, Core.Write, Write_eq, recordOf]

/-- A child core made with a field, then written to: the record has the
attribute of the `Write` and not the field given to `With`. -/
theorem With_sample_record :
    (Core.Write sampleRuntime (HostCores.mk (fun h _ => h) (fun _ _ _ t => (none, t)))
        ((OtelZapCore.mk recordingLogger).With [.StringType (str "ctx") (str "bound")])
        sampleEntry [.BoolType (str "ok") true] ((), [])).2.2.map LogRecord.attributes
      = [some [⟨str "ok", .BOOL true⟩]] := by
  simp [OtelZapCore.With, Core.Write, Write_eq, recordOf, recordingLogger]
  decide

/-! ## The opt-out variable and the fan-out (C12) -/

set_option maxRecDepth 100000 in
/-- Lowering a byte gives a letter of `true` exactly for that letter in either
case. -/
theorem lowerByte_eq_letter (c : UInt8) :
    (lowerByte c = 116 ↔ c = 116 ∨ c = 84) ∧ (lowerByte c = 114 ↔ c = 114 ∨ c = 82) ∧
    (lowerByte c = 117 ↔ c = 117 ∨ c = 85) ∧ (lowerByte c = 101 ↔ c = 101 ∨ c = 69) := by
  rcases c with ⟨v⟩
  revert v
  decide

/-- The bytes of the literal `true`. -/
theorem str_true : str "true" = [116, 114, 117, 101] := by decide

/-- A string without an upper-case letter is not changed by lowering its
bytes. -/
theorem map_lowerByte_of_no_upper (s : GoString)
    (h : s.any (fun c => 65 ≤ c ∧ c ≤ 90) = false) : s.map lowerByte = s := by
  induction s with
  | nil => rfl
  | cons c cs ih =>
    simp only [List.any_cons, Bool.or_eq_false_iff, decide_eq_false_iff_not] at h
    rw [List.map_cons, ih h.2]
    simp [lowerByte, h.1]

/-- On a string of ASCII bytes `strings.ToLower` lowers every byte. -/
theorem ToLower_of_ascii (m : GoString → GoString) (s : GoString)
    (h : s.all (fun c => c < 128) = true) : ToLower m s = s.map lowerByte := by
  unfold ToLower
  simp only [h, if_true]
  split
  · next h1 => exact (map_lowerByte_of_no_upper s (by simpa using h1)).symm
  · rfl

/-- Lowering every byte gives `true` exactly for `true` in any mix of cases. -/
theorem map_lowerByte_eq_true_iff (s : GoString) :
    s.map lowerByte = [116, 114, 117, 101] ↔ equalsTrueIgnoringCase s = true := by
  rcases s with _ | ⟨a, _ | ⟨b, _ | ⟨c, _ | ⟨d, _ | ⟨e, t⟩⟩⟩⟩⟩ <;>
    simp [equalsTrueIgnoringCase, (lowerByte_eq_letter _).1, (lowerByte_eq_letter _).2.1,
      (lowerByte_eq_letter _).2.2.1, (lowerByte_eq_letter _).2.2.2, and_assoc]

/-- The sixteen spellings of `true` are made of ASCII bytes. -/
theorem ascii_of_equalsTrueIgnoringCase (s : GoString)
    (h : equalsTrueIgnoringCase s = true) : s.all (fun c => c < 128) = true := by
  rcases s with _ | ⟨a, _ | ⟨b, _ | ⟨c, _ | ⟨d, _ | ⟨e, t⟩⟩⟩⟩⟩ <;>
    simp [equalsTrueIgnoringCase] at h
  obtain ⟨⟨⟨ha, hb⟩, hc⟩, hd⟩ := h
  rcases ha with rfl | rfl <;> rcases hb with rfl | rfl <;> rcases hc with rfl | rfl <;>
    rcases hd with rfl | rfl <;> decide

/-- `strings.ToLower(s) == "true"` holds exactly for `true` in any mix of
cases, provided the mapping of a string with a byte outside ASCII never gives
`true`. -/
theorem ToLower_eq_true_iff (m : GoString → GoString)
    (hm : ∀ s : GoString, s.all (fun c => c < 128) = false → m s ≠ str "true")
    (s : GoString) : ToLower m s = str "true" ↔ equalsTrueIgnoringCase s = true := by
  by_cases h : s.all (fun c => c < 128) = true
  · rw [ToLower_of_ascii m s h, str_true]
    exact map_lowerByte_eq_true_iff s
  · have h2 : s.all (fun c => c < 128) = false := by simpa using h
    constructor
    · intro e
      have e2 : ToLower m s = m s := by
        unfold ToLower
        simp only [h2]
        rfl
      rw [e2] at e
      exact absurd e (hm s h2)
    · intro e
      exact absurd (ascii_of_equalsTrueIgnoringCase s e) h

/-- A logger whose core is replaced by a fan-out over that core and another is
not the logger it was. -/
theorem ZapLogger.ne_of_core_multiCore (σ : Type) (logger : ZapLogger σ) (c : Core σ) :
    ({ logger with core := Core.multiCore [logger.core, c] } : ZapLogger σ) ≠ logger := by
  intro h
  have h1 : Core.multiCore [logger.core, c] = logger.core := congrArg ZapLogger.core h
  have h2 := congrArg sizeOf h1
  simp at h2
  omega

/-- What `AttachToZapLogger` returns, by the value of the variable. -/
theorem AttachToZapLogger_eq (σ : Type) (env : Environ) (m : GoString → GoString)
    (provider : LoggerProvider σ) (logger : ZapLogger σ) :
    AttachToZapLogger env m provider logger
      = if (∃ v, env otelSdkDisabled = some v ∧ ToLower m v = str "true") then logger
        else { logger with core := (Core.multiCore
                [logger.core, Core.otelZap ⟨provider.Logger instrumentationLibraryName⟩]) } := by
  unfold AttachToZapLogger LookupEnv
  cases hv : env otelSdkDisabled with
  | none => simp [ZapLogger.WithOptions, WrapCore, NewTee, NewOtelZapCore]
  | some v =>
    by_cases ht : ToLower m v = str "true"
    · simp [ht]
    · simp [ht, ZapLogger.WithOptions, WrapCore, NewTee, NewOtelZapCore]

/-- The fan-out over a core and the adapter writes to the core first and then
hands the adapter's logger the record; the error is the one of the core. -/
theorem Core.Write_tee (σ τ : Type) (rt : GoRuntime) (hc : HostCores τ) (c : Core σ)
    (o : OtelZapCore σ) (ent : Entry) (fields : List Field) (w : τ × σ) :
    Core.Write rt hc (Core.multiCore [c, Core.otelZap o]) ent fields w
      = ((Core.Write rt hc c ent fields w).1,
         ((Core.Write rt hc c ent fields w).2.1,
          o.logger.Emit (recordOf rt ent fields) (Core.Write rt hc c ent fields w).2.2)) := by
  simp only [Core.Write, Core.WriteEach, Write_eq]
  cases (Core.Write rt hc c ent fields w).1 <;> rfl

/-- C12. `AttachToZapLogger` returns the given logger unchanged exactly when
`OTEL_SDK_DISABLED` is defined and its value is `true` in some mix of upper and
lower case. When the variable is not defined or has any other value, it
returns the logger with its core replaced by the fan-out over the original
core first and the adapter second; a `Write` on that fan-out writes to the
original core and then emits the record once on the adapter's logger. The
mapping that `strings.ToLower` applies to a string with a byte outside ASCII
is assumed never to give `true`. -/
theorem AttachToZapLogger_unchanged_iff_disabled (σ τ : Type) (env : Environ)
    (m : GoString → GoString) (provider : LoggerProvider σ) (logger : ZapLogger σ)
    (hm : ∀ s : GoString, s.all (fun c => c < 128) = false → m s ≠ str "true") :
    (AttachToZapLogger env m provider logger = logger ↔
      ∃ v, env otelSdkDisabled = some v ∧ equalsTrueIgnoringCase v = true) ∧
    (¬ (∃ v, env otelSdkDisabled = some v ∧ equalsTrueIgnoringCase v = true) →
      AttachToZapLogger env m provider logger
        = { logger with core := (Core.multiCore
              [logger.core, Core.otelZap ⟨provider.Logger instrumentationLibraryName⟩]) }) ∧
    (∀ (rt : GoRuntime) (hc : HostCores τ) (ent : Entry) (fields : List Field) (w : τ × σ),
      Core.Write rt hc
          (Core.multiCore
            [logger.core, Core.otelZap ⟨provider.Logger instrumentationLibraryName⟩])
          ent fields w
        = ((Core.Write rt hc logger.core ent fields w).1,
           ((Core.Write rt hc logger.core ent fields w).2.1,
            (provider.Logger instrumentationLibraryName).Emit (recordOf rt ent fields)
              (Core.Write rt hc logger.core ent fields w).2.2))) := by
  have hiff : (∃ v, env otelSdkDisabled = some v ∧ ToLower m v = str "true") ↔
      ∃ v, env otelSdkDisabled = some v ∧ equalsTrueIgnoringCase v = true := by
    constructor
    · rintro ⟨v, h1, h2⟩
      exact ⟨v, h1, (ToLower_eq_true_iff m hm v).mp h2⟩
    · rintro ⟨v, h1, h2⟩
      exact ⟨v, h1, (ToLower_eq_true_iff m hm v).mpr h2⟩
  refine ⟨⟨fun h => ?_, fun h => ?_⟩, fun h => ?_, fun rt hc ent fields w => ?_⟩
  · by_contra hno
    rw [AttachToZapLogger_eq, if_neg (fun hd => hno (hiff.mp hd))] at h
    exact ZapLogger.ne_of_core_multiCore σ logger _ h
  · rw [AttachToZapLogger_eq, if_pos (hiff.mpr h)]
  · rw [AttachToZapLogger_eq, if_neg (fun hd => h (hiff.mp hd))]
  · exact Core.Write_tee σ τ rt hc logger.core _ ent fields w

/-- The identity never maps a string with a byte outside ASCII to `true`. -/
theorem id_ne_true_of_not_ascii (s : GoString)
    (h : s.all (fun c => c < 128) = false) : (fun t : GoString => t) s ≠ str "true" := by
  intro e
  have e2 : s = str "true" := e
  rw [e2] at h
  revert h
  decide

/-- Witness for C12: with the value `TRUE` the logger is returned unchanged;
with the value `false` its core becomes the fan-out. -/
theorem AttachToZapLogger_unchanged_iff_disabled_witness :
    AttachToZapLogger (sampleEnviron (some (str "TRUE"))) (fun t => t) sampleProvider
        sampleZapLogger = sampleZapLogger ∧
    AttachToZapLogger (sampleEnviron (some (str "false"))) (fun t => t) sampleProvider
        sampleZapLogger
      = { sampleZapLogger with core := (Core.multiCore
            [sampleZapLogger.core,
             Core.otelZap ⟨sampleProvider.Logger instrumentationLibraryName⟩]) } :=
  ⟨(AttachToZapLogger_unchanged_iff_disabled (List LogRecord) Unit
      (sampleEnviron (some (str "TRUE"))) (fun t => t) sampleProvider sampleZapLogger
      id_ne_true_of_not_ascii).1.mpr ⟨str "TRUE", by decide, by decide⟩,
   (AttachToZapLogger_unchanged_iff_disabled (List LogRecord) Unit
      (sampleEnviron (some (str "false"))) (fun t => t) sampleProvider sampleZapLogger
      id_ne_true_of_not_ascii).2.1 (by
        rintro ⟨v, h1, h2⟩
        have h3 : v = str "false" := by
          have h4 : sampleEnviron (some (str "false")) otelSdkDisabled = some (str "false") := by
            decide
          rw [h4] at h1
          exact (Option.some.inj h1).symm
        rw [h3] at h2
        revert h2
        decide)⟩

/-- The spellings the variable is compared with: `true`, `TRUE` and `True`
match; the empty string, `1`, `yes`, ` true` and `false` do not. -/
theorem equalsTrueIgnoringCase_samples :
    equalsTrueIgnoringCase (str "true") = true ∧ equalsTrueIgnoringCase (str "TRUE") = true ∧
    equalsTrueIgnoringCase (str "True") = true ∧ equalsTrueIgnoringCase (str "") = false ∧
    equalsTrueIgnoringCase (str "1") = false ∧ equalsTrueIgnoringCase (str "yes") = false ∧
    equalsTrueIgnoringCase (str " true") = false ∧
    equalsTrueIgnoringCase (str "false") = false ∧
    ToLower (fun t => t) (str "TRUE") = str "true" ∧
    ToLower (fun t => t) (str " true") ≠ str "true" := by
  decide

end ZapBridge
